import Mathlib

/-!
Verification development for the core of the `dht-crawler` repository: a
Mainline BitTorrent DHT participant. The development gives a shallow
embedding, translated from the Rust sources, of

* the 160-bit `NodeID` byte codec (`packages/krpc_encoding/src/node_id.rs`),
* the KRPC message codec (`packages/krpc_protocol/src/messages.rs` together
  with the `addr`, `booleans` and `node_info` helper modules),
* the transaction registry (`packages/tokio_krpc/src/active_transactions.rs`),
* per-contact liveness state (`packages/routing_table/src/node_contact_state.rs`),
* the k-bucket tree routing table and its bootstrap traversal
  (`packages/routing_table/src/{k_bucket,routing_table,full_b_tree,transport}.rs`),
* the announce-token validator (`packages/dht_crawler/src/routing/token_validator.rs`),
* the inbound datagram stream (`packages/dht_crawler/src/transport/inbound_message_stream.rs`),
* the inbound query handler (`src/dht/handler.rs` with the routing table of
  `packages/dht_crawler/src/routing/`),

and proves (or refutes on concrete inputs) the behavioural properties stated
for those components.

Modelling conventions: Rust `BigUint` node ids are Lean `Nat`; byte buffers
are `List Nat` whose elements are below 256 on the well-formed domain;
`chrono::NaiveDateTime` timestamps are `Int` numbers of seconds and the
wall clock is passed explicitly to every function that reads it; fallible
operations return `Option` or `Except`; loops whose termination is not
structural take an explicit fuel argument, and every statement about them
supplies enough fuel for the executions it talks about.
-/

/-! ## NodeID (packages/krpc_encoding/src/node_id.rs)

A `NodeID` wraps a `BigUint`; we model the numeric value directly as `Nat`.
-/

abbrev NodeID := Nat

/-- Big-endian interpretation of a byte list, as `BigUint::from_bytes_be`. -/
def fromBytesBE (bytes : List Nat) : Nat :=
  bytes.foldl (fun acc b => acc * 256 + b) 0

/-- Little-endian byte expansion of `n`, least significant byte first.
The first argument is fuel; `n` itself is always sufficient fuel since the
value shrinks by a factor of 256 every step. -/
def toBytesLEAux : Nat → Nat → List Nat
  | 0, _ => []
  | _ + 1, 0 => []
  | fuel + 1, n => n % 256 :: toBytesLEAux fuel (n / 256)

/-- Minimal big-endian byte representation, as `BigUint::to_bytes_be`:
the representation of `0` is the single byte `0`, and for positive values
there is no leading zero byte. -/
def toBytesBE (n : Nat) : List Nat :=
  if n = 0 then [0] else (toBytesLEAux n n).reverse

/-- NodeID construction from bytes (`NodeID::from_bytes`), which defers to
`BigUint::from_bytes_be`. -/
def NodeID.from_bytes (bytes : List Nat) : NodeID :=
  fromBytesBE bytes

/-- Serialization of a NodeID to 20 bytes (`NodeID::as_bytes`): take the
minimal big-endian representation and `Vec::resize(20, 0)` it, which
truncates to the first 20 bytes or appends zero bytes at the end up to
length 20. -/
def NodeID.as_bytes (v : NodeID) : List Nat :=
  (toBytesBE v ++ List.replicate 20 0).take 20

/-- Bit query (`NodeID::nth_bit`): the source computes
`((value >> n) & 1) == 1`, which is `Nat.testBit value n`. -/
def NodeID.nth_bit (v : NodeID) (n : Nat) : Bool :=
  Nat.testBit v n

/-! ## Endpoints (src/proto/addr.rs, re-exported by krpc_encoding as addr)

`Addr` is a transparent wrapper around `std::net::SocketAddrV4`; we model the
socket address as four octets and a port. The octets and the port are `u8`
and `u16` in Rust; the well-formedness predicates below restrict the model
to that domain where it matters.
-/

structure SocketAddrV4 where
  o0 : Nat
  o1 : Nat
  o2 : Nat
  o3 : Nat
  port : Nat
deriving DecidableEq

/-- Compact 6-byte endpoint encoding (`addr::to_bytes` / `addr::write_to`):
four address octets followed by the port in network (big-endian) order. -/
def addr_to_bytes (a : SocketAddrV4) : List Nat :=
  [a.o0, a.o1, a.o2, a.o3, a.port / 256, a.port % 256]

/-- Compact endpoint decoding (`addr::from_bytes`): octets from the first
four bytes, port read big-endian from the next two. The source indexes the
slice directly (panicking on underflow, which callers prevent by length
checks); out-of-range reads default to 0 here. -/
def addr_from_bytes (v : List Nat) : SocketAddrV4 :=
  { o0 := v.getD 0 0, o1 := v.getD 1 0, o2 := v.getD 2 0, o3 := v.getD 3 0,
    port := v.getD 4 0 * 256 + v.getD 5 0 }

/-! ## NodeInfo (src/proto/node_info.rs) -/

structure NodeInfo where
  node_id : NodeID
  address : SocketAddrV4
deriving DecidableEq

/-- Compact 26-byte contact encoding (`NodeInfo::to_bytes`): 20 id bytes then
the 6-byte endpoint. -/
def NodeInfo.to_bytes (n : NodeInfo) : List Nat :=
  n.node_id.as_bytes ++ addr_to_bytes n.address

/-- Compact contact decoding (`NodeInfo::from_bytes`): the id from the first
20 bytes, the endpoint from the following bytes. -/
def NodeInfo.from_bytes (s : List Nat) : NodeInfo :=
  { node_id := NodeID.from_bytes (s.take 20), address := addr_from_bytes (s.drop 20) }

/-! ## Message data model (packages/krpc_protocol/src/messages.rs)

Byte strings (`Vec<u8>` under `serde_bytes`, `ByteBuf`) are `List Nat`.
The `String` payload of `ProtocolError` is kept as its UTF-8 bytes.
-/

inductive Query where
  | Ping (id : NodeID)
  | FindNode (id : NodeID) (target : NodeID)
  | GetPeers (id : NodeID) (info_hash : NodeID)
  | AnnouncePeer (id : NodeID) (implied_port : Bool) (port : Option Nat)
      (info_hash : NodeID) (token : List Nat)
  | SampleInfoHashes (id : NodeID) (target : NodeID)
deriving DecidableEq

inductive Response where
  | NextHop (id : NodeID) (token : Option (List Nat)) (nodes : List NodeInfo)
  | GetPeers (id : NodeID) (token : Option (List Nat)) (peers : List SocketAddrV4)
  | OnlyId (id : NodeID)
  | Samples (id : NodeID) (interval : Option Nat) (nodes : List NodeInfo)
      (num : Option Nat) (samples : List NodeID)
deriving DecidableEq

/-- Error payload `ProtocolError(u8, String)`; the message is kept as its
byte sequence. -/
structure ProtocolError where
  code : Nat
  message : List Nat
deriving DecidableEq

inductive MessageType where
  | query (q : Query)
  | response (r : Response)
  | error (e : ProtocolError)
deriving DecidableEq

structure Message where
  ip : Option SocketAddrV4
  transaction_id : List Nat
  version : Option (List Nat)
  message_type : MessageType
  read_only : Bool
deriving DecidableEq

/-! ## Bencode values

The bencode abstract syntax produced and consumed by `serde_bencode`.
Dictionary entries are listed with their keys; `serde_bencode` emits
dictionary keys in sorted order and the decoder looks entries up by key,
so entry order is irrelevant to decoding.
-/

inductive Bencode where
  | int (n : Int)
  | str (s : List Nat)
  | list (xs : List Bencode)
  | dict (xs : List (String × Bencode))

/-- ASCII bytes of a key or method-name string. -/
def strBytes (s : String) : List Nat :=
  s.toList.map Char.toNat

/-! ## Encoder (serde `Serialize` semantics for the types above)

Struct fields and flattened payloads are emitted as dictionary entries;
`Option` fields that are `None` are omitted; dictionary keys appear in
sorted order, matching the byte strings asserted by the repository's tests.
-/

/-- Encoded entries of an optional field: omitted when absent. -/
def optField (k : String) : Option Bencode → List (String × Bencode)
  | none => []
  | some b => [(k, b)]

/-- Encoding of a `bool` (serde default `Serialize`, bencode integer). -/
def boolBencode (b : Bool) : Bencode :=
  .int (if b then 1 else 0)

/-- Encoding of a `Vec<u8>` without `serde_bytes` (the response `token`
field): a bencode list of integers. -/
def byteSeqBencode (bs : List Nat) : Bencode :=
  .list (bs.map (fun (b : Nat) => .int (b : Int)))

/-- Encoding of a node list (`node_info::serialize`): the 26-byte compact
forms concatenated into one byte string. -/
def nodesBencode (ns : List NodeInfo) : Bencode :=
  .str (ns.map NodeInfo.to_bytes).flatten

/-- Query name and argument dictionary (`#[serde(tag = "q", content = "a")]`
on `Query`). Argument keys are in sorted order. -/
def Query.encoded : Query → String × Bencode
  | .Ping id => ("ping", .dict [("id", .str id.as_bytes)])
  | .FindNode id target =>
      ("find_node", .dict [("id", .str id.as_bytes), ("target", .str target.as_bytes)])
  | .GetPeers id info_hash =>
      ("get_peers", .dict [("id", .str id.as_bytes), ("info_hash", .str info_hash.as_bytes)])
  | .AnnouncePeer id implied_port port info_hash token =>
      ("announce_peer", .dict
        ([("id", .str id.as_bytes), ("implied_port", boolBencode implied_port),
          ("info_hash", .str info_hash.as_bytes)]
         ++ optField "port" (port.map (fun p => .int p))
         ++ [("token", .str token)]))
  | .SampleInfoHashes id target =>
      ("sample_infohashes", .dict [("id", .str id.as_bytes), ("target", .str target.as_bytes)])

/-- Response body dictionary (`#[serde(untagged)]` on `Response`). -/
def Response.encoded : Response → Bencode
  | .NextHop id token nodes =>
      .dict ([("id", .str id.as_bytes)]
        ++ [("nodes", nodesBencode nodes)]
        ++ optField "token" (token.map byteSeqBencode))
  | .GetPeers id token peers =>
      .dict ([("id", .str id.as_bytes)]
        ++ optField "token" (token.map byteSeqBencode)
        ++ [("values", .list (peers.map (fun a => .str (addr_to_bytes a))))])
  | .OnlyId id => .dict [("id", .str id.as_bytes)]
  | .Samples id interval nodes num samples =>
      .dict ([("id", .str id.as_bytes)]
        ++ optField "interval" (interval.map (fun i => .int i))
        ++ [("nodes", nodesBencode nodes)]
        ++ optField "num" (num.map (fun i => .int i))
        ++ [("samples", .list (samples.map (fun s => .str s.as_bytes)))])

/-- Error body: the tuple struct `ProtocolError(u8, String)` serializes as a
two-element bencode list. -/
def ProtocolError.encoded (e : ProtocolError) : Bencode :=
  .list [.int e.code, .str e.message]

/-- Envelope encoding (`Message` with its serde attributes): the flattened
`MessageType` contributes `y` plus `a`/`q`, `r`, or `e`; `ip` and `v` are
omitted when absent; `ro` is omitted when false
(`skip_serializing_if = "booleans::is_false"`). Keys in sorted order. -/
def encodeMessage (m : Message) : Bencode :=
  .dict (
    (match m.message_type with
      | .query q => [("a", q.encoded.2)]
      | _ => [])
    ++ (match m.message_type with
      | .error e => [("e", e.encoded)]
      | _ => [])
    ++ optField "ip" (m.ip.map (fun a => .str (addr_to_bytes a)))
    ++ (match m.message_type with
      | .query q => [("q", .str (strBytes q.encoded.1))]
      | _ => [])
    ++ (match m.message_type with
      | .response r => [("r", r.encoded)]
      | _ => [])
    ++ (if m.read_only then [("ro", .int 1)] else [])
    ++ [("t", .str m.transaction_id)]
    ++ optField "v" (m.version.map .str)
    ++ [("y", .str (strBytes (match m.message_type with
      | .query _ => "q"
      | .response _ => "r"
      | .error _ => "e")))])

/-! ## Decoder (serde `Deserialize` semantics)

Struct deserialization looks fields up by key and ignores unknown entries
(serde's default); missing non-`Option` fields are errors; `Option` fields
default to `None` when absent.
-/

/-- Dictionary lookup by key. -/
def dictGet (k : String) : List (String × Bencode) → Option Bencode
  | [] => none
  | (k', v) :: rest => if k' = k then some v else dictGet k rest

def Bencode.asDict : Bencode → Option (List (String × Bencode))
  | .dict xs => some xs
  | _ => none

def Bencode.asStr : Bencode → Option (List Nat)
  | .str s => some s
  | _ => none

def Bencode.asInt : Bencode → Option Int
  | .int n => some n
  | _ => none

/-- Deserialization of `u8` from a bencode integer, with range check. -/
def decodeU8 (b : Bencode) : Option Nat :=
  b.asInt.bind fun i => if 0 ≤ i ∧ i < 256 then some i.toNat else none

/-- Deserialization of `u16` from a bencode integer, with range check. -/
def decodeU16 (b : Bencode) : Option Nat :=
  b.asInt.bind fun i => if 0 ≤ i ∧ i < 65536 then some i.toNat else none

/-- Deserialization of `u32` from a bencode integer, with range check. -/
def decodeU32 (b : Bencode) : Option Nat :=
  b.asInt.bind fun i => if 0 ≤ i ∧ i < 4294967296 then some i.toNat else none

/-- Deserialization of `bool` through `booleans::deserialize`: visits the
value as an integer and returns `v == 1`. -/
def booleans_deserialize (b : Bencode) : Option Bool :=
  b.asInt.map (fun v => v == 1)

/-- Element-wise fallible decoding of a sequence, in order (serde's
sequence visitor). -/
def optionMapM {α β : Type} (f : α → Option β) : List α → Option (List β)
  | [] => some []
  | x :: xs => (f x).bind fun y => (optionMapM f xs).map fun ys => y :: ys

/-- Deserialization of a `Vec<u8>` without `serde_bytes`: a bencode list of
integers, each range-checked as `u8`. -/
def decodeByteSeq (b : Bencode) : Option (List Nat) :=
  match b with
  | .list xs => optionMapM decodeU8 xs
  | _ => none

/-- NodeID deserialization (`NodeIDVisitor::visit_bytes`): requires exactly
20 bytes, then `NodeID::from_bytes`. -/
def NodeID.deserialize (b : Bencode) : Option NodeID :=
  b.asStr.bind fun s => if s.length = 20 then some (NodeID.from_bytes s) else none

/-- Addr deserialization (`NodeInfoVisitor` in addr.rs): requires exactly 6
bytes, then `addr::from_bytes`. -/
def Addr.deserialize (b : Bencode) : Option SocketAddrV4 :=
  b.asStr.bind fun s => if s.length = 6 then some (addr_from_bytes s) else none

/-- Splitting a byte string into successive 26-byte contacts
(`NodeInfoVecVisitor::visit_bytes` steps through offsets 0, 26, 52, ...;
`NodeInfo::from_bytes` reads only the first 26 bytes of the remainder).
The fuel is the list length, which bounds the number of chunks. -/
def parseNodesAux : Nat → List Nat → List NodeInfo
  | 0, _ => []
  | fuel + 1, s =>
      if s = [] then []
      else NodeInfo.from_bytes s :: parseNodesAux fuel (s.drop 26)

/-- Node list deserialization (`node_info::deserialize`): the byte string's
length must be a multiple of 26. -/
def node_info_deserialize (b : Bencode) : Option (List NodeInfo) :=
  b.asStr.bind fun s =>
    if s.length % 26 = 0 then some (parseNodesAux s.length s) else none

/-- Lookup of an optional field: absent is `none`, present must decode. -/
def optGet {α : Type} (k : String) (d : List (String × Bencode))
    (f : Bencode → Option α) : Option (Option α) :=
  match dictGet k d with
  | none => some none
  | some b => (f b).map some

/-- Query payload deserialization (`#[serde(tag = "q", content = "a")]`):
dispatch on the method name, then read the argument fields. -/
def Query.deserialize (name : List Nat) (args : Bencode) : Option Query :=
  args.asDict.bind fun d =>
    if name = strBytes "ping" then
      (dictGet "id" d).bind NodeID.deserialize |>.map .Ping
    else if name = strBytes "find_node" then
      (dictGet "id" d).bind NodeID.deserialize |>.bind fun id =>
      (dictGet "target" d).bind NodeID.deserialize |>.map fun target =>
      .FindNode id target
    else if name = strBytes "get_peers" then
      (dictGet "id" d).bind NodeID.deserialize |>.bind fun id =>
      (dictGet "info_hash" d).bind NodeID.deserialize |>.map fun info_hash =>
      .GetPeers id info_hash
    else if name = strBytes "announce_peer" then
      (dictGet "id" d).bind NodeID.deserialize |>.bind fun id =>
      (dictGet "implied_port" d).bind booleans_deserialize |>.bind fun implied_port =>
      optGet "port" d decodeU16 |>.bind fun port =>
      (dictGet "info_hash" d).bind NodeID.deserialize |>.bind fun info_hash =>
      (dictGet "token" d).bind Bencode.asStr |>.map fun token =>
      .AnnouncePeer id implied_port port info_hash token
    else if name = strBytes "sample_infohashes" then
      (dictGet "id" d).bind NodeID.deserialize |>.bind fun id =>
      (dictGet "target" d).bind NodeID.deserialize |>.map fun target =>
      .SampleInfoHashes id target
    else none

/-- First untagged attempt: the `NextHop` variant. -/
def Response.tryNextHop (b : Bencode) : Option Response :=
  b.asDict.bind fun d =>
    (dictGet "id" d).bind NodeID.deserialize |>.bind fun id =>
    optGet "token" d decodeByteSeq |>.bind fun token =>
    (dictGet "nodes" d).bind node_info_deserialize |>.map fun nodes =>
    .NextHop id token nodes

/-- Second untagged attempt: the `GetPeers` variant (`values` field). -/
def Response.tryGetPeers (b : Bencode) : Option Response :=
  b.asDict.bind fun d =>
    (dictGet "id" d).bind NodeID.deserialize |>.bind fun id =>
    optGet "token" d decodeByteSeq |>.bind fun token =>
    (dictGet "values" d).bind (fun v =>
      match v with
      | .list xs => optionMapM Addr.deserialize xs
      | _ => none) |>.map fun peers =>
    .GetPeers id token peers

/-- Third untagged attempt: the `OnlyId` variant. -/
def Response.tryOnlyId (b : Bencode) : Option Response :=
  b.asDict.bind fun d =>
    (dictGet "id" d).bind NodeID.deserialize |>.map fun id => .OnlyId id

/-- Fourth untagged attempt: the `Samples` variant. -/
def Response.trySamples (b : Bencode) : Option Response :=
  b.asDict.bind fun d =>
    (dictGet "id" d).bind NodeID.deserialize |>.bind fun id =>
    optGet "interval" d decodeU16 |>.bind fun interval =>
    (dictGet "nodes" d).bind node_info_deserialize |>.bind fun nodes =>
    optGet "num" d decodeU32 |>.bind fun num =>
    (dictGet "samples" d).bind (fun v =>
      match v with
      | .list xs => optionMapM NodeID.deserialize xs
      | _ => none) |>.map fun samples =>
    .Samples id interval nodes num samples

/-- Response deserialization: `#[serde(untagged)]` tries the variants in
declaration order (NextHop, GetPeers, OnlyId, Samples) and accepts the
first that succeeds, ignoring unknown fields within each attempt. -/
def Response.deserialize (b : Bencode) : Option Response :=
  match Response.tryNextHop b with
  | some r => some r
  | none =>
    match Response.tryGetPeers b with
    | some r => some r
    | none =>
      match Response.tryOnlyId b with
      | some r => some r
      | none => Response.trySamples b

/-- Error payload deserialization: a two-element list of a `u8` code and a
string message. -/
def ProtocolError.deserialize (b : Bencode) : Option ProtocolError :=
  match b with
  | .list [c, m] =>
      (decodeU8 c).bind fun code => m.asStr.map fun message =>
      { code := code, message := message }
  | _ => none

/-- Envelope deserialization: common fields by key (`ro` defaulting to
false when absent), then the internally tagged `MessageType` dispatched on
the `y` value. -/
def decodeMessage (b : Bencode) : Option Message :=
  b.asDict.bind fun d =>
    (dictGet "t" d).bind Bencode.asStr |>.bind fun t =>
    optGet "ip" d Addr.deserialize |>.bind fun ip =>
    optGet "v" d Bencode.asStr |>.bind fun version =>
    (match dictGet "ro" d with
      | none => some false
      | some b => booleans_deserialize b) |>.bind fun read_only =>
    (dictGet "y" d).bind Bencode.asStr |>.bind fun y =>
    (if y = strBytes "q" then
      (dictGet "q" d).bind Bencode.asStr |>.bind fun name =>
      (dictGet "a" d).bind fun args =>
      (Query.deserialize name args).map MessageType.query
    else if y = strBytes "r" then
      (dictGet "r" d).bind Response.deserialize |>.map MessageType.response
    else if y = strBytes "e" then
      (dictGet "e" d).bind ProtocolError.deserialize |>.map MessageType.error
    else none) |>.map fun message_type =>
    { ip := ip, transaction_id := t, version := version,
      message_type := message_type, read_only := read_only }

/-! ## Bencode byte framing

The byte-level rendering and parsing of bencode values performed by the
`serde_bencode` crate: integers as `i<decimal>e`, byte strings as
`<decimal length>:<bytes>`, lists as `l...e`, dictionaries as `d...e`.
Rendering and parsing take fuel; the nesting depth of every envelope this
codec produces is at most four, and parsing consumes input at every step,
so the fuel chosen in `Message.encode` / `Message.decode` is sufficient.
-/

/-- Decimal digit expansion (ASCII, least significant first); fuel-driven. -/
def natDecimalAux : Nat → Nat → List Nat
  | 0, _ => []
  | _ + 1, 0 => []
  | fuel + 1, n => (48 + n % 10) :: natDecimalAux fuel (n / 10)

/-- Decimal ASCII rendering of a natural number. -/
def natDecimal (n : Nat) : List Nat :=
  if n = 0 then [48] else (natDecimalAux n n).reverse

/-- Decimal ASCII rendering of an integer, with a leading minus sign when
negative. -/
def intDecimal (i : Int) : List Nat :=
  if i < 0 then 45 :: natDecimal i.natAbs else natDecimal i.natAbs

mutual

/-- Byte rendering of a bencode value. -/
def bencodeSerialize : Nat → Bencode → List Nat
  | 0, _ => []
  | _ + 1, .int i => 105 :: (intDecimal i ++ [101])
  | _ + 1, .str s => natDecimal s.length ++ 58 :: s
  | fuel + 1, .list xs => 108 :: (bencodeSerializeItems fuel xs ++ [101])
  | fuel + 1, .dict xs => 100 :: (bencodeSerializeEntries fuel xs ++ [101])

/-- Byte rendering of consecutive list items. -/
def bencodeSerializeItems : Nat → List Bencode → List Nat
  | _, [] => []
  | fuel, x :: xs => bencodeSerialize fuel x ++ bencodeSerializeItems fuel xs

/-- Byte rendering of consecutive dictionary entries; each key is rendered
as a byte string. -/
def bencodeSerializeEntries : Nat → List (String × Bencode) → List Nat
  | _, [] => []
  | fuel, (k, v) :: xs =>
      natDecimal (strBytes k).length ++ 58 :: strBytes k
        ++ bencodeSerialize fuel v ++ bencodeSerializeEntries fuel xs

end

/-- Is this byte an ASCII decimal digit? -/
def isDigit (c : Nat) : Bool :=
  48 ≤ c && c ≤ 57

/-- Split leading decimal digits from the input. -/
def takeDigits : List Nat → List Nat × List Nat
  | [] => ([], [])
  | c :: rest =>
      if isDigit c then
        let (ds, r) := takeDigits rest
        (c :: ds, r)
      else ([], c :: rest)

/-- Numeric value of a list of ASCII digits. -/
def digitsToNat (ds : List Nat) : Nat :=
  ds.foldl (fun acc d => acc * 10 + (d - 48)) 0

/-- Little-endian value of reversed ASCII digits, used to reason about
`natDecimalAux`. -/
def digitsLEVal : List Nat → Nat
  | [] => 0
  | d :: rest => (d - 48) + 10 * digitsLEVal rest

/-- Does the given serializer fuel cover the value's nesting depth? -/
def serializeOK : Nat → Bencode → Bool
  | 0, _ => false
  | _ + 1, .int _ => true
  | _ + 1, .str _ => true
  | fuel + 1, .list xs => xs.all (serializeOK fuel)
  | fuel + 1, .dict xs => xs.all (fun kv => serializeOK fuel kv.2)

/-- Parse a length-prefixed byte string `<decimal>:<bytes>`. -/
def parseByteString (s : List Nat) : Option (List Nat × List Nat) :=
  let p := takeDigits s
  if p.1 = [] then none
  else if p.2.head? = some 58 then
    let n := digitsToNat p.1
    if n ≤ p.2.tail.length then some (p.2.tail.take n, p.2.tail.drop n) else none
  else none

/-- Dictionary keys are parsed as byte strings and interpreted as text. -/
def bytesToKey (bs : List Nat) : String :=
  String.mk (bs.map Char.ofNat)

mutual

/-- Parse one bencode value, returning it with the unconsumed remainder:
`i` opens an integer, `l` a list, `d` a dictionary and a decimal digit a
length-prefixed byte string. -/
def bencodeParse : Nat → List Nat → Option (Bencode × List Nat)
  | 0, _ => none
  | fuel + 1, s =>
    match s with
    | [] => none
    | c :: rest =>
      if c = 105 then
        let pneg := if rest.head? = some 45 then (true, rest.tail) else (false, rest)
        let p := takeDigits pneg.2
        if p.1 = [] then none
        else if p.2.head? = some 101 then
          some (.int (if pneg.1 then -(digitsToNat p.1 : Int) else (digitsToNat p.1 : Int)),
            p.2.tail)
        else none
      else if c = 108 then (bencodeParseItems fuel rest).map fun p => (Bencode.list p.1, p.2)
      else if c = 100 then (bencodeParseEntries fuel rest).map fun p => (Bencode.dict p.1, p.2)
      else if isDigit c then (parseByteString (c :: rest)).map fun p => (Bencode.str p.1, p.2)
      else none

/-- Parse list items up to the closing `e`. -/
def bencodeParseItems : Nat → List Nat → Option (List Bencode × List Nat)
  | 0, _ => none
  | fuel + 1, s =>
      if s.head? = some 101 then some ([], s.tail)
      else
        (bencodeParse fuel s).bind fun x =>
        (bencodeParseItems fuel x.2).map fun p => (x.1 :: p.1, p.2)

/-- Parse dictionary entries up to the closing `e`. -/
def bencodeParseEntries : Nat → List Nat → Option (List (String × Bencode) × List Nat)
  | 0, _ => none
  | fuel + 1, s =>
      if s.head? = some 101 then some ([], s.tail)
      else
        (parseByteString s).bind fun k =>
        (bencodeParse fuel k.2).bind fun v =>
        (bencodeParseEntries fuel v.2).map fun p => ((bytesToKey k.1, v.1) :: p.1, p.2)

end

/-- Envelope encoding to bytes (`Message::encode`, via
`serde_bencode::ser::to_bytes`). Envelopes nest at most four levels deep,
for which fuel 8 is ample. -/
def Message.encode (m : Message) : List Nat :=
  bencodeSerialize 8 (encodeMessage m)

/-- Envelope decoding from bytes (`Message::decode`, via
`serde_bencode::de::from_bytes`): parse one bencode value consuming the
whole input, then deserialize the envelope from it. -/
def Message.decode (bytes : List Nat) : Option Message :=
  (bencodeParse (bytes.length + 1) bytes).bind fun (v, rest) =>
    if rest = [] then decodeMessage v else none

/-! ## Well-typedness of messages

The conditions the Rust types impose on the modelled values: byte-buffer
elements fit in a byte, ports fit in sixteen bits, error codes in eight.
`NodeID.canonicalWidth` additionally singles out the ids whose minimal
big-endian representation already fills 20 bytes (or is zero): by the
behaviour of `NodeID::as_bytes` these are exactly the ids whose 20-byte
serialization parses back to the same value.
-/

/-- The id is zero or occupies exactly 20 big-endian bytes with a nonzero
leading byte. -/
def NodeID.canonicalWidth (v : NodeID) : Prop :=
  v = 0 ∨ (2 ^ 152 ≤ v ∧ v < 2 ^ 160)

instance (v : NodeID) : Decidable v.canonicalWidth := by
  unfold NodeID.canonicalWidth; infer_instance

/-- Little-endian byte interpretation, used to reason about `toBytesLEAux`. -/
def fromBytesLE : List Nat → Nat
  | [] => 0
  | b :: rest => b + 256 * fromBytesLE rest

def Query.wf : Query → Prop
  | .Ping id => id.canonicalWidth
  | .FindNode id target => id.canonicalWidth ∧ target.canonicalWidth
  | .GetPeers id info_hash => id.canonicalWidth ∧ info_hash.canonicalWidth
  | .AnnouncePeer id _ port info_hash _ =>
      id.canonicalWidth ∧ (∀ p ∈ port, p < 65536) ∧ info_hash.canonicalWidth
  | .SampleInfoHashes id target => id.canonicalWidth ∧ target.canonicalWidth

def Response.wf : Response → Prop
  | .NextHop id token nodes =>
      id.canonicalWidth ∧ (∀ t ∈ token, ∀ b ∈ t, b < 256)
        ∧ (∀ n ∈ nodes, n.node_id.canonicalWidth)
  | .GetPeers id token _ =>
      id.canonicalWidth ∧ (∀ t ∈ token, ∀ b ∈ t, b < 256)
  | .OnlyId id => id.canonicalWidth
  | .Samples id interval nodes num samples =>
      id.canonicalWidth ∧ (∀ i ∈ interval, i < 65536)
        ∧ (∀ n ∈ nodes, n.node_id.canonicalWidth) ∧ (∀ i ∈ num, i < 4294967296)
        ∧ (∀ s ∈ samples, s.canonicalWidth)

/-- Is this response body the `Samples` variant? -/
def Response.isSamples : Response → Bool
  | .Samples _ _ _ _ _ => true
  | _ => false

/-- Does the message carry a `Samples` response body? -/
def Message.isSamplesResponse (m : Message) : Bool :=
  match m.message_type with
  | .response r => r.isSamples
  | _ => false

def Message.wf (m : Message) : Prop :=
  match m.message_type with
  | .query q => q.wf
  | .response r => r.wf
  | .error e => e.code < 256

instance (q : Query) : Decidable q.wf := by cases q <;> (unfold Query.wf; infer_instance)

instance (r : Response) : Decidable r.wf := by cases r <;> (unfold Response.wf; infer_instance)

instance (m : Message) : Decidable m.wf := by
  unfold Message.wf
  rcases m with ⟨_, _, _, mt, _⟩
  rcases mt <;> (simp only []; infer_instance)

/-- The ping envelope of the repository's own round-trip test
(`ping_request` in krpc_protocol/tests/tests.rs). -/
def pingEnvelope : Message :=
  { ip := none, transaction_id := strBytes "aa", version := none,
    message_type := .query (.Ping (NodeID.from_bytes (strBytes "abcdefghij0123456789"))),
    read_only := false }

/-- Envelope used to exhibit the `Samples` decoding behaviour: a response
carrying an empty sample set. -/
def samplesEnvelope : Message :=
  { ip := none, transaction_id := strBytes "aa", version := none,
    message_type := .response
      (.Samples (NodeID.from_bytes (strBytes "abcdefghij0123456789")) none [] none []),
    read_only := false }

/-- What the `Samples` envelope above decodes to: the `NextHop` variant with
the sampling fields dropped. -/
def samplesEnvelopeDecoded : Message :=
  { ip := none, transaction_id := strBytes "aa", version := none,
    message_type := .response
      (.NextHop (NodeID.from_bytes (strBytes "abcdefghij0123456789")) none []),
    read_only := false }

/-! ## Transaction registry (packages/tokio_krpc/src/active_transactions.rs)

`ActiveTransactions` wraps a `HashMap<TransactionId, TxState>` behind a
mutex; we model the map as an association list with `HashMap` semantics
(`insert` replaces any existing entry for the key). The task `Waker` is
opaque; waking is a no-op on the modelled state, so only its identity is
kept.
-/

abbrev TransactionId := Nat

/-- Inbound response body (`inbound_response_envelope.rs`): either a
decoded response or a KRPC error, with the echoed transaction id bytes. -/
inductive ResponseType where
  | error (e : ProtocolError)
  | response (r : Response)
deriving DecidableEq

structure InboundResponseEnvelope where
  transaction_id : List Nat
  response : ResponseType
deriving DecidableEq

inductive TxState where
  | GotResponse (response : InboundResponseEnvelope)
  | AwaitingResponse (waker : Option Nat)
deriving DecidableEq

abbrev TxMap := List (TransactionId × TxState)

/-- Map lookup. -/
def txLookup (k : TransactionId) : TxMap → Option TxState
  | [] => none
  | (k', v) :: rest => if k' = k then some v else txLookup k rest

/-- `HashMap::insert`: replaces any existing entry for the key. -/
def txInsert (k : TransactionId) (v : TxState) (m : TxMap) : TxMap :=
  (k, v) :: m.filter (fun e => e.1 ≠ k)

/-- `HashMap::remove`. -/
def txRemove (k : TransactionId) (m : TxMap) : TxMap :=
  m.filter (fun e => e.1 ≠ k)

/-- Receive-side error kinds (`recv_errors.rs`). -/
inductive RecvErrorKind where
  | InvalidResponseTransactionId
  | UnknownTransactionReceived (transaction_id : TransactionId)
deriving DecidableEq

/-- Send-side error kinds (`send_errors.rs`), restricted to those the
registry reports. -/
inductive SendErrorKind where
  | UnknownTransactionPolled (transaction_id : TransactionId)
deriving DecidableEq

instance {α β : Type} [DecidableEq α] [DecidableEq β] : DecidableEq (Except α β) :=
  fun a b =>
    match a, b with
    | .ok x, .ok y =>
        if h : x = y then isTrue (by rw [h]) else isFalse (by intro hc; cases hc; exact h rfl)
    | .error x, .error y =>
        if h : x = y then isTrue (by rw [h]) else isFalse (by intro hc; cases hc; exact h rfl)
    | .ok _, .error _ => isFalse (by intro hc; cases hc)
    | .error _, .ok _ => isFalse (by intro hc; cases hc)

/-- Poll outcome of `poll_response`. -/
inductive PollOutcome where
  | Ready (response : InboundResponseEnvelope)
  | Pending
deriving DecidableEq

/-- Big-endian reading of a 4-byte transaction id
(`parse_originating_transaction_id`): exactly 4 bytes required. -/
def parse_originating_transaction_id (bytes : List Nat) : Except RecvErrorKind TransactionId :=
  if bytes.length ≠ 4 then .error .InvalidResponseTransactionId
  else .ok (fromBytesBE bytes)

/-- Big-endian 4-byte rendering of a `u32` transaction id, as written into
the wire `t` field of an originating request. -/
def transactionIdBytes (t : TransactionId) : List Nat :=
  [t / 16777216 % 256, t / 65536 % 256, t / 256 % 256, t % 256]

/-- Registration (`ActiveTransactions::add_transaction`): inserts a fresh
awaiting entry, replacing whatever the map held for this id. -/
def add_transaction (transaction_id : TransactionId) (m : TxMap) : TxMap :=
  txInsert transaction_id (.AwaitingResponse none) m

/-- Removal (`ActiveTransactions::drop_transaction`). -/
def drop_transaction (transaction_id : TransactionId) (m : TxMap) : TxMap :=
  txRemove transaction_id m

/-- Completion (`ActiveTransactions::handle_response`): parse the id from
the envelope; unknown ids are an error; a duplicate response leaves the
stored response in place; otherwise the awaiting entry becomes
`GotResponse` (and the waker, if any, is woken). -/
def handle_response (message : InboundResponseEnvelope) (m : TxMap) :
    Except RecvErrorKind TxMap :=
  match parse_originating_transaction_id message.transaction_id with
  | .error e => .error e
  | .ok transaction_id =>
    match txLookup transaction_id m with
    | none => .error (.UnknownTransactionReceived transaction_id)
    | some current =>
      match current with
      | .GotResponse r => .ok (txInsert transaction_id (.GotResponse r) (txRemove transaction_id m))
      | .AwaitingResponse _ =>
          .ok (txInsert transaction_id (.GotResponse message) (txRemove transaction_id m))

/-- Poll (`ActiveTransactions::poll_response`): unknown ids are an error; a
stored response is consumed and returned ready; otherwise the waker is
stored (never overwriting an already-stored waker) and the poll is
pending. -/
def poll_response (transaction_id : TransactionId) (waker : Nat) (m : TxMap) :
    Except SendErrorKind (PollOutcome × TxMap) :=
  match txLookup transaction_id m with
  | none => .error (.UnknownTransactionPolled transaction_id)
  | some state =>
    match state with
    | .GotResponse response => .ok (.Ready response, txRemove transaction_id m)
    | .AwaitingResponse (some w) =>
        .ok (.Pending, txInsert transaction_id (.AwaitingResponse (some w)) (txRemove transaction_id m))
    | .AwaitingResponse none =>
        .ok (.Pending, txInsert transaction_id (.AwaitingResponse (some waker)) (txRemove transaction_id m))

/-- A concrete inbound response envelope used to exercise the registry. -/
def c4Envelope : InboundResponseEnvelope :=
  { transaction_id := [0, 0, 0, 7],
    response := .error { code := 201, message := strBytes "A Generic Error Ocurred" } }

/-! ## Node contact state (packages/routing_table/src/node_contact_state.rs)

Timestamps are seconds; `chrono`'s `num_minutes` on a signed duration is
division by 60 truncated toward zero (`Int.tdiv`). Every function that
calls `Utc::now()` in the source receives the clock as an explicit `now`
argument.
-/

inductive NodeState where
  | Good
  | Questionable
  | Bad
deriving DecidableEq

structure NodeContactState where
  id : NodeID
  address : SocketAddrV4
  last_successful_query_to : Option Int
  last_request_from : Option Int
  failed_queries : Nat
deriving DecidableEq

/-- Whole minutes elapsed from `t` to `now`
(`now.signed_duration_since(t).num_minutes()`). -/
def minutesSince (now t : Int) : Int :=
  (now - t).tdiv 60

/-- Fresh contact (`NodeContactState::new`). -/
def NodeContactState.new (id : NodeID) (address : SocketAddrV4) : NodeContactState :=
  { id := id, address := address, last_successful_query_to := none,
    last_request_from := none, failed_queries := 0 }

/-- Successful query to the node (`mark_successful_query`): zero the
failure count, stamp the query-to time. -/
def NodeContactState.mark_successful_query (c : NodeContactState) (now : Int) : NodeContactState :=
  { c with failed_queries := 0, last_successful_query_to := some now }

/-- Failed query to the node (`mark_failed_query`). -/
def NodeContactState.mark_failed_query (c : NodeContactState) : NodeContactState :=
  { c with failed_queries := c.failed_queries + 1 }

/-- Valid request received from the node (`mark_successful_request`). -/
def NodeContactState.mark_successful_request (c : NodeContactState) (now : Int) : NodeContactState :=
  { c with last_request_from := some now }

/-- Liveness classification (`NodeContactState::state`): two failures make
the node Bad; otherwise a recent successful query to it, or any successful
query to it combined with a recent request from it, makes it Good; else it
is Questionable. The source's two guarded match arms are translated as a
guard cascade. -/
def NodeContactState.state (c : NodeContactState) (now : Int) : NodeState :=
  if c.failed_queries ≥ 2 then .Bad
  else
    match c.last_request_from, c.last_successful_query_to with
    | _, some last_request_to =>
        if minutesSince now last_request_to < 15 then .Good
        else
          match c.last_request_from with
          | some last_request_from =>
              if minutesSince now last_request_from < 15 then .Good else .Questionable
          | none => .Questionable
    | _, none => .Questionable

/-- Failure-count accessor used by the bucket comparator. The accessor
itself is absent from node_contact_state.rs in the tree (only its call
sites exist); it can only read the field of the same name. -/
def NodeContactState.failed_queries_of (c : NodeContactState) : Nat :=
  c.failed_queries

/-- Modelled from the spec: the `last_contacted` accessor called by
`KBucket::take_questionable_node` is absent from node_contact_state.rs in
the tree. The spec breaks eviction ties by oldest `last_successful_query_to`,
so the accessor reads that timestamp. -/
def NodeContactState.last_contacted (c : NodeContactState) : Option Int :=
  c.last_successful_query_to

/-- Modelled from the spec: `update_from_result`, called by
`LivenessTransport::ping`, is absent from node_contact_state.rs in the
tree. The spec classifies a failed or timed-out probe as a failed query on
the probed contact and a successful probe as a successful query. -/
def NodeContactState.update_from_result (c : NodeContactState) (now : Int) (ok : Bool) :
    NodeContactState :=
  if ok then c.mark_successful_query now else c.mark_failed_query

/-! ## k-bucket (packages/routing_table/src/k_bucket.rs) -/

inductive LeafType where
  | Near
  | Far
deriving DecidableEq

def LeafType.can_split : LeafType → Bool
  | .Far => false
  | .Near => true

structure KBucket where
  contacts : List NodeContactState
  leaf_type : LeafType
deriving DecidableEq

def K_BUCKET_SIZE : Nat := 8

/-- Initial bucket (`KBucket::initial`): empty and Near. -/
def KBucket.initial : KBucket :=
  { contacts := [], leaf_type := .Near }

/-- Index of the contact with the given id (`get_node_index`). -/
def KBucket.get_node_index (b : KBucket) (node_id : NodeID) : Option Nat :=
  b.contacts.findIdx? (fun node => node.id = node_id)

/-- Contacts currently classified Good, as contact infos (`good_nodes`). -/
def KBucket.good_nodes (b : KBucket) (now : Int) : List NodeInfo :=
  (b.contacts.filter (fun it => it.state now = .Good)).map
    (fun it => { node_id := it.id, address := it.address })

/-- Remove one Bad contact if any (`take_bad_node`): the first in order. -/
def KBucket.take_bad_node (b : KBucket) (now : Int) : Option NodeContactState × KBucket :=
  match b.contacts.findIdx? (fun it => it.state now = .Bad) with
  | none => (none, b)
  | some idx =>
      (b.contacts.get? idx, { b with contacts := b.contacts.eraseIdx idx })

/-- Eviction comparator of `take_questionable_node`: fewest failed queries
first; ties by `last_contacted` with absent timestamps ordered before
present ones. -/
def cmpQuestionable (lhs rhs : NodeContactState) : Ordering :=
  let failed_queries_cmp := compare lhs.failed_queries_of rhs.failed_queries_of
  match failed_queries_cmp with
  | .lt => .lt
  | .gt => .gt
  | .eq =>
    match lhs.last_contacted, rhs.last_contacted with
    | none, none => .eq
    | some lhs_last_contacted, some rhs_last_contacted =>
        compare lhs_last_contacted rhs_last_contacted
    | some _, none => .gt
    | none, some _ => .lt

/-- Remove and return the least recently seen Questionable contact
(`take_questionable_node`); `min_by` keeps the first of equal minima. -/
def KBucket.take_questionable_node (b : KBucket) (now : Int) :
    Option NodeContactState × KBucket :=
  let qs := b.contacts.enum.filter (fun p => p.2.state now = .Questionable)
  match qs with
  | [] => (none, b)
  | first :: rest =>
      let best := rest.foldl
        (fun acc p => if cmpQuestionable p.2 acc.2 = .lt then p else acc) first
      (some best.2, { b with contacts := b.contacts.eraseIdx best.1 })

/-- Space check (`definitely_has_remaining_space`). -/
def KBucket.definitely_has_remaining_space (b : KBucket) : Bool :=
  b.contacts.length < K_BUCKET_SIZE

/-- Append a fresh contact, returning its index (`add_node`). -/
def KBucket.add_node (b : KBucket) (node_info : NodeInfo) : KBucket × Nat :=
  let node_contact_state := NodeContactState.new node_info.node_id node_info.address
  ({ b with contacts := b.contacts ++ [node_contact_state] }, b.contacts.length)

/-- Oracle standing for the network as seen through the request transport:
the response of a `find_node`, and the id answering a `ping`, per address
(`none` is a send failure or timeout). -/
structure LivenessOracle where
  ping : SocketAddrV4 → Option NodeID
  findNode : SocketAddrV4 → Option (NodeID × List NodeInfo)

/-- Probe of one Questionable contact (`evict_questionable_node` together
with `LivenessTransport::ping`): the probe succeeds when the pinged address
answers with the contact's own id (a differing id is `PingIdMismatch`), the
contact is updated from the outcome, and a contact that is now Bad is
discarded while any other is put back. -/
def KBucket.evict_questionable_node (b : KBucket) (oracle : LivenessOracle) (now : Int) :
    Option Bool × KBucket :=
  match b.take_questionable_node now with
  | (none, b') => (none, b')
  | (some questionable_node, b') =>
      let ok := oracle.ping questionable_node.address = some questionable_node.id
      let probed := questionable_node.update_from_result now ok
      match probed.state now with
      | .Questionable => (some false, { b' with contacts := b'.contacts ++ [probed] })
      | .Good => (some false, { b' with contacts := b'.contacts ++ [probed] })
      | .Bad => (some true, b')

/-- The probing loop inside `try_add`: evict Questionable contacts until
one turns Bad (space freed) or none are left. The fuel bounds loop trips;
every trip either ends the loop or marks one more contact Good, so
`2 * K_BUCKET_SIZE + 2` trips always suffice. -/
def KBucket.try_add_loop : Nat → KBucket → LivenessOracle → Int → KBucket × Bool
  | 0, b, _, _ => (b, false)
  | fuel + 1, b, oracle, now =>
    match b.evict_questionable_node oracle now with
    | (none, b') => (b', false)
    | (some true, b') => (b', true)
    | (some false, b') => KBucket.try_add_loop fuel b' oracle now

/-- Insertion with eviction (`try_add`): an existing contact is returned
as-is; with space the contact is appended; otherwise one Bad contact, or a
Questionable contact that fails probing, is evicted to make room; if
nothing can be evicted the caller must split. -/
def KBucket.try_add (b : KBucket) (fuel : Nat) (oracle : LivenessOracle) (now : Int)
    (node_info : NodeInfo) : KBucket × Option Nat :=
  match b.get_node_index node_info.node_id with
  | some node_index => (b, some node_index)
  | none =>
    if b.definitely_has_remaining_space then
      let (b', idx) := b.add_node node_info
      (b', some idx)
    else
      match b.take_bad_node now with
      | (some _, b') =>
          let (b'', idx) := b'.add_node node_info
          (b'', some idx)
      | (none, _) =>
        match KBucket.try_add_loop fuel b oracle now with
        | (b', true) =>
            let (b'', idx) := b'.add_node node_info
            (b'', some idx)
        | (b', false) => (b', none)

/-- Split (`KBucket::split`): partition the contacts by bit `depth` (zero
bit to the left bucket, one bit to the right bucket); the bucket on the
side of the owner's bit at `depth` inherits Near, the other Far. -/
def KBucket.split (b : KBucket) (owner_id : NodeID) (depth : Nat) : KBucket × KBucket :=
  let (zero_bit_nodes, one_bit_nodes) :=
    b.contacts.partition (fun node => !(node.id.nth_bit depth))
  let owner_is_one_bit := owner_id.nth_bit depth
  ({ contacts := zero_bit_nodes,
     leaf_type := if owner_is_one_bit then .Far else .Near },
   { contacts := one_bit_nodes,
     leaf_type := if owner_is_one_bit then .Near else .Far })

/-! ## Routing table tree (packages/routing_table/src/{full_b_tree,routing_table}.rs) -/

inductive FullBTreeNode (α : Type) where
  | Leaf (value : α)
  | Inner (left : FullBTreeNode α) (right : FullBTreeNode α)
deriving DecidableEq

/-- Direction taken at an inner node, recording the descent path. -/
inductive Dir where
  | left
  | right
deriving DecidableEq

/-- In-place update of the nth list element. -/
def listModify {α : Type} (f : α → α) : Nat → List α → List α
  | _, [] => []
  | 0, x :: xs => f x :: xs
  | n + 1, x :: xs => x :: listModify f n xs

/-- Leaf reached from `root` by the descent of
`find_bucket_mut_recursive`: at each inner node the bit of `node_id` at the
current depth selects the left child when it is one, the right child when
it is zero. -/
def findBucketLeaf : FullBTreeNode KBucket → NodeID → Nat → KBucket
  | .Leaf values, _, _ => values
  | .Inner left right, node_id, depth =>
      if node_id.nth_bit depth then findBucketLeaf left node_id (depth + 1)
      else findBucketLeaf right node_id (depth + 1)

/-- Number of Near leaves in the whole tree. -/
def countNearLeaves : FullBTreeNode KBucket → Nat
  | .Leaf b => if b.leaf_type = .Near then 1 else 0
  | .Inner left right => countNearLeaves left + countNearLeaves right

/-- Apply `mark_successful_query` to the contact at the given descent path
and index (the mutation `bootstrap` performs through the reference
returned by `add_node`). -/
def markSuccessfulAt : FullBTreeNode KBucket → List Dir → Nat → Int → FullBTreeNode KBucket
  | .Leaf b, _, idx, now =>
      .Leaf { b with contacts := listModify (fun c => c.mark_successful_query now) idx b.contacts }
  | .Inner left right, [], _, _ => .Inner left right
  | .Inner left right, .left :: path, idx, now =>
      .Inner (markSuccessfulAt left path idx now) right
  | .Inner left right, .right :: path, idx, now =>
      .Inner left (markSuccessfulAt right path idx now)

def NODE_ID_SIZE_BITS : Nat := 160

/-- Recursive insertion (`RoutingTable::add_node_rec`): descend to the
target leaf, `try_add` there; on failure split Near leaves (below the depth
limit) and retry from the split node. The returned path and index locate
the inserted or found contact. The fuel bounds recursion and is ample at
`2 * NODE_ID_SIZE_BITS` for every statement below. -/
def add_node_rec (owner_id : NodeID) (oracle : LivenessOracle) (now : Int) :
    Nat → FullBTreeNode KBucket → NodeInfo → Nat →
    FullBTreeNode KBucket × Option (List Dir × Nat)
  | 0, root, _, _ => (root, none)
  | fuel + 1, .Inner left right, node_info, depth =>
      if node_info.node_id.nth_bit depth then
        let (left', result) := add_node_rec owner_id oracle now fuel left node_info (depth + 1)
        (.Inner left' right, result.map (fun p => (.left :: p.1, p.2)))
      else
        let (right', result) := add_node_rec owner_id oracle now fuel right node_info (depth + 1)
        (.Inner left right', result.map (fun p => (.right :: p.1, p.2)))
  | fuel + 1, .Leaf leaf_k_bucket, node_info, depth =>
      let (leaf', result) := leaf_k_bucket.try_add (2 * K_BUCKET_SIZE + 2) oracle now node_info
      match result with
      | some node_index => (.Leaf leaf', some ([], node_index))
      | none =>
        if !leaf'.leaf_type.can_split then (.Leaf leaf', none)
        else if depth ≥ NODE_ID_SIZE_BITS - 1 then (.Leaf leaf', none)
        else
          let (lhs, rhs) := leaf'.split owner_id depth
          add_node_rec owner_id oracle now fuel (.Inner (.Leaf lhs) (.Leaf rhs)) node_info depth

structure RoutingTable where
  id : NodeID
  root : FullBTreeNode KBucket
deriving DecidableEq

/-- Fresh table (`RoutingTable::new`): a single initial leaf. -/
def RoutingTable.new (id : NodeID) : RoutingTable :=
  { id := id, root := .Leaf KBucket.initial }

/-- Insertion (`RoutingTable::add_node`). -/
def RoutingTable.add_node (rt : RoutingTable) (oracle : LivenessOracle) (now : Int)
    (node_info : NodeInfo) : RoutingTable × Option (List Dir × Nat) :=
  let (root', result) := add_node_rec rt.id oracle now (2 * NODE_ID_SIZE_BITS) rt.root node_info 0
  ({ rt with root := root' }, result)

/-- Queueing step of `bootstrap`: enqueue every returned contact whose
address is not yet visited, marking it visited. -/
def enqueueUnvisited : List NodeInfo → List SocketAddrV4 → List SocketAddrV4 →
    List SocketAddrV4 × List SocketAddrV4
  | [], nodes, visited => (nodes, visited)
  | node :: rest, nodes, visited =>
      if visited.contains node.address then enqueueUnvisited rest nodes visited
      else enqueueUnvisited rest (nodes ++ [node.address]) (node.address :: visited)

/-- Loop body of `bootstrap` over the queue and visited set; `address` is
the seed argument of the enclosing `bootstrap` call, which the source
(rather than the popped endpoint) pairs with each responder id. The fuel
bounds loop trips. -/
def bootstrapLoop (oracle : LivenessOracle) (now : Int) (address : SocketAddrV4) :
    Nat → List SocketAddrV4 → List SocketAddrV4 → RoutingTable → RoutingTable
  | 0, _, _, rt => rt
  | _ + 1, [], _, rt => rt
  | fuel + 1, next_node :: rest, visited, rt =>
    match oracle.findNode next_node with
    | none => bootstrapLoop oracle now address fuel rest visited rt
    | some (response_id, response_nodes) =>
      let (rt', result) := rt.add_node oracle now { node_id := response_id, address := address }
      match result with
      | none => rt'
      | some (path, idx) =>
        let rt'' := { rt' with root := markSuccessfulAt rt'.root path idx now }
        let (rest', visited') := enqueueUnvisited response_nodes rest visited
        bootstrapLoop oracle now address fuel rest' visited' rt''

/-- Bootstrap traversal (`RoutingTable::bootstrap`): breadth-first over a
queue seeded with the given address, which also starts the visited set. -/
def RoutingTable.bootstrap (rt : RoutingTable) (oracle : LivenessOracle) (now : Int)
    (fuel : Nat) (address : SocketAddrV4) : RoutingTable :=
  bootstrapLoop oracle now address fuel [address] [address] rt

/-- All contacts of the tree, in left-to-right leaf order. -/
def treeContacts : FullBTreeNode KBucket → List NodeContactState
  | .Leaf b => b.contacts
  | .Inner left right => treeContacts left ++ treeContacts right

/-! ## Token validator (packages/dht_crawler/src/routing/token_validator.rs)

The external SHA-1 digest of the `crypto` crate is abstracted as a
function argument `hash` from the fed byte stream (address bytes followed
by secret bytes) to the digest; statements assume it injective, which is
the collision-freeness the validator relies on.
-/

/-- One 4-byte token secret (`[u8; 4]`). -/
structure Secret where
  b0 : Nat
  b1 : Nat
  b2 : Nat
  b3 : Nat
deriving DecidableEq

def Secret.bytes (s : Secret) : List Nat :=
  [s.b0, s.b1, s.b2, s.b3]

structure TokenValidator where
  token_secret : Secret
  last_token_secret : Secret
deriving DecidableEq

/-- Token computation (the file-local free function `generate_token` of
token_validator.rs): digest the compact address bytes followed by the
secret bytes. -/
def generate_token' (hash : List Nat → List Nat) (addr : SocketAddrV4) (secret : Secret) :
    List Nat :=
  hash (addr_to_bytes addr ++ secret.bytes)

/-- Token issuance (`TokenValidator::generate_token`): uses the current
secret. -/
def TokenValidator.generate_token (v : TokenValidator) (hash : List Nat → List Nat)
    (addr : SocketAddrV4) : List Nat :=
  generate_token' hash addr v.token_secret

/-- Verification (`TokenValidator::verify_token`): the token must equal the
one generated under the current or the previous secret. -/
def TokenValidator.verify_token (v : TokenValidator) (hash : List Nat → List Nat)
    (addr : SocketAddrV4) (token : List Nat) : Bool :=
  generate_token' hash addr v.token_secret == token
    || generate_token' hash addr v.last_token_secret == token

/-- Rotation (`TokenValidator::rotate_tokens`): the current secret becomes
the previous one and a freshly drawn secret (passed as input here)
replaces it. -/
def TokenValidator.rotate_tokens (v : TokenValidator) (new_secret : Secret) : TokenValidator :=
  { token_secret := new_secret, last_token_secret := v.token_secret }

/-! ## Inbound message stream
(packages/dht_crawler/src/transport/inbound_message_stream.rs)

The stream is `stream::unfold` over a step that awaits one receive
outcome. A receive outcome is either an I/O error or a datagram with its
sender; the step decodes the datagram through `Envelope::decode`, which is
the codec modelled above (the krpc_encoding envelope is the same structure
as the krpc_protocol `Message`). The fixed 1024-byte receive buffer
truncates longer datagrams.
-/

inductive RecvOutcome where
  | ioError
  | datagram (bytes : List Nat) (sender : SocketAddrV4)

/-- Error kinds surfaced by the stream (errors.rs): the receive failure is
wrapped as `BindError` context and a decode failure as
`InvalidInboundMessage` carrying the sender and the raw bytes. -/
inductive CrawlerErrorKind where
  | BindError
  | InvalidInboundMessage (sender : SocketAddrV4) (message : List Nat)
deriving DecidableEq

/-- One receive-and-decode step (`receive_inbound_message`). -/
def receive_inbound_message (outcome : RecvOutcome) :
    Except CrawlerErrorKind (Message × SocketAddrV4) :=
  match outcome with
  | .ioError => .error .BindError
  | .datagram bytes sender =>
      let slice := bytes.take 1024
      match Message.decode slice with
      | none => .error (.InvalidInboundMessage sender slice)
      | some envelope => .ok (envelope, sender)

/-- The unfold step (`receive_inbound_message_wrapper`): always `some`, so
the stream never ends; the yielded item is the step's result, failed or
not, and the continuation state (socket and buffer, `Unit` here) is
returned for the next pull. -/
def receive_inbound_message_wrapper (outcome : RecvOutcome) (state : Unit) :
    Option (Except CrawlerErrorKind (Message × SocketAddrV4) × Unit) :=
  some (receive_inbound_message outcome, state)

/-! ## dht_crawler routing table and the inbound query handler
(packages/dht_crawler/src/routing/{node,bucket,table}.rs and
src/dht/handler.rs)

This crate's routing table is a sorted list of range buckets over the key
space. The bucket module referenced by table.rs is the one at
src/routing/bucket.rs of the older tree (identical API); the node type is
packages/dht_crawler/src/routing/node.rs. The Lean names are prefixed with
`Crawler.` because the Rust names coincide with the routing_table crate's.
-/

namespace Crawler

structure Node where
  id : NodeID
  address : SocketAddrV4
  last_request_to : Option Int
  last_request_from : Option Int
  failed_requests : Nat
deriving DecidableEq

/-- Fresh node record (`Node::new`). -/
def Node.new (id : NodeID) (address : SocketAddrV4) : Node :=
  { id := id, address := address, last_request_to := none,
    last_request_from := none, failed_requests := 0 }

def Node.mark_successful_request (n : Node) (now : Int) : Node :=
  { n with failed_requests := 0, last_request_to := some now }

def Node.mark_failed_request (n : Node) : Node :=
  { n with failed_requests := n.failed_requests + 1 }

def Node.mark_successful_request_from (n : Node) (now : Int) : Node :=
  { n with last_request_from := some now }

/-- Liveness classification (`Node::state` of dht_crawler): identical rule
to the routing_table crate, with the request-from arm listed first. -/
def Node.state (n : Node) (now : Int) : NodeState :=
  if n.failed_requests ≥ 2 then .Bad
  else
    match n.last_request_from, n.last_request_to with
    | some last_request_from, some last_request_to =>
        if minutesSince now last_request_from < 15 then .Good
        else if minutesSince now last_request_to < 15 then .Good
        else .Questionable
    | none, some last_request_to =>
        if minutesSince now last_request_to < 15 then .Good else .Questionable
    | _, none => .Questionable

def MAX_BUCKET_SIZE : Nat := 8

/-- Range bucket (src/routing/bucket.rs): holds nodes with keys in
`[start, stop)`; the source calls the upper bound `end`, a reserved word
here. -/
structure Bucket where
  start : NodeID
  stop : NodeID
  nodes : List Node
deriving DecidableEq

def Bucket.new (start stop : NodeID) : Bucket :=
  { start := start, stop := stop, nodes := [] }

/-- The bucket spanning the whole key space (`initial_bucket`): from zero
to `BigUint::from_bytes_be([0xff; 20]) + 1`. -/
def Bucket.initial_bucket : Bucket :=
  Bucket.new 0 (NodeID.from_bytes (List.replicate 20 255) + 1)

def Bucket.could_hold_node (b : Bucket) (id : NodeID) : Bool :=
  decide (b.start ≤ id ∧ id < b.stop)

def Bucket.good_nodes (b : Bucket) (now : Int) : List Node :=
  b.nodes.filter (fun node => node.state now = .Good)

/-- Fullness counts Good nodes only (`is_full`). -/
def Bucket.is_full (b : Bucket) (now : Int) : Bool :=
  (b.good_nodes now).length ≥ MAX_BUCKET_SIZE

/-- Insertion into a bucket (`Bucket::add_node`): push while below
capacity, otherwise replace the first Bad node if any, otherwise drop the
node. The source asserts (by panicking) that the bucket's range holds the
node's id; callers guarantee it, and the model returns the bucket
unchanged on that unreachable branch. -/
def Bucket.add_node (b : Bucket) (now : Int) (node : Node) : Bucket :=
  if !(b.could_hold_node node.id) then b
  else if b.nodes.length < MAX_BUCKET_SIZE then
    { b with nodes := b.nodes ++ [node] }
  else
    match b.nodes.findIdx? (fun n => n.state now = .Bad) with
    | some idx => { b with nodes := b.nodes.set idx node }
    | none => b

def Bucket.get (b : Bucket) (id : NodeID) : Option Node :=
  b.nodes.find? (fun node => node.id = id)

/-- Index form of `Bucket::get_mut`, locating the node to update. -/
def Bucket.get_idx (b : Bucket) (id : NodeID) : Option Nat :=
  b.nodes.findIdx? (fun node => node.id = id)

structure RoutingTable where
  id : NodeID
  buckets : List Bucket
  token_validator : TokenValidator
deriving DecidableEq

/-- Fresh table (`RoutingTable::new`): one bucket covering the key space.
The validator's two random initial secrets are inputs. -/
def RoutingTable.new (id : NodeID) (s0 s1 : Secret) : RoutingTable :=
  { id := id, buckets := [Bucket.initial_bucket],
    token_validator := { token_secret := s0, last_token_secret := s1 } }

/-- Bucket index for an id (`get_bucket_idx`): the source binary-searches
the ordered contiguous cover with a comparator that is `Equal` exactly on
the bucket that could hold the id, so it finds the unique such index;
`none` models the panic when no bucket holds the id. -/
def RoutingTable.get_bucket_idx (t : RoutingTable) (id : NodeID) : Option Nat :=
  t.buckets.findIdx? (fun bucket => bucket.could_hold_node id)

def RoutingTable.verify_token (t : RoutingTable) (hash : List Nat → List Nat)
    (token : List Nat) (addr : SocketAddrV4) : Bool :=
  t.token_validator.verify_token hash addr token

def RoutingTable.generate_token (t : RoutingTable) (hash : List Nat → List Nat)
    (addr : SocketAddrV4) : List Nat :=
  t.token_validator.generate_token hash addr

/-- Find-or-insert (`get_or_add`): in the bucket for `id`, add a fresh node
when the id is absent, then return the location of the node with this id
(absent when a full bucket without Bad nodes declined the insert). -/
def RoutingTable.get_or_add (t : RoutingTable) (now : Int) (id : NodeID)
    (address : SocketAddrV4) : RoutingTable × Option (Nat × Nat) :=
  match t.get_bucket_idx id with
  | none => (t, none)
  | some bucket_idx =>
    match t.buckets.get? bucket_idx with
    | none => (t, none)
    | some bucket =>
      let bucket' :=
        if (bucket.get id).isNone then bucket.add_node now (Node.new id address)
        else bucket
      let t' := { t with buckets := t.buckets.set bucket_idx bucket' }
      match bucket'.get_idx id with
      | none => (t', none)
      | some node_idx => (t', some (bucket_idx, node_idx))

/-- Apply an update to the node at a located position. -/
def RoutingTable.modifyNode (t : RoutingTable) (loc : Nat × Nat) (f : Node → Node) :
    RoutingTable :=
  { t with buckets := listModify (fun b => { b with nodes := listModify f loc.2 b.nodes }) loc.1 t.buckets }

end Crawler

/-- Request-recording step of the handler (`record_request` in
src/dht/handler.rs): unless the peer declared itself read-only, touch it
in the routing table and stamp a successful request from it. -/
def record_request (t : Crawler.RoutingTable) (now : Int) (id : NodeID)
    (from_addr : SocketAddrV4) (read_only : Bool) : Crawler.RoutingTable :=
  if read_only then t
  else
    let (t', loc) := t.get_or_add now id from_addr
    match loc with
    | none => t'
    | some l => t'.modifyNode l (fun node => node.mark_successful_request_from now)

/-- Protocol errors returned by the announce handler (errors.rs kinds used
there). -/
inductive DhtErrorKind where
  | InvalidToken
  | InsufficientAddress
deriving DecidableEq

/-- The handler's shared state (`Dht` of src/dht/mod.rs): own id, announce
store, routing table. -/
structure Dht where
  id : NodeID
  torrents : List (NodeID × List SocketAddrV4)
  routing_table : Crawler.RoutingTable
deriving DecidableEq

/-- Announce-store append (`torrents.entry(info_hash).or_insert_with(Vec::new).push(addr)`). -/
def torrentsAppend : List (NodeID × List SocketAddrV4) → NodeID → SocketAddrV4 →
    List (NodeID × List SocketAddrV4)
  | [], info_hash, addr => [(info_hash, [addr])]
  | (k, peers) :: rest, info_hash, addr =>
      if k = info_hash then (k, peers ++ [addr]) :: rest
      else (k, peers) :: torrentsAppend rest info_hash addr

/-- The announce_peer handler (`Dht::handle_announce_peer`): verify the
echoed token against the sender; resolve the endpoint to store (the sender
itself under `implied_port`, otherwise the sender with the provided port,
whose absence is a protocol error); only then record the sender and append
the endpoint to the announce store. -/
def Dht.handle_announce_peer (dht : Dht) (hash : List Nat → List Nat) (now : Int)
    (from_addr : SocketAddrV4) (id : NodeID) (implied_port : Bool) (port : Option Nat)
    (info_hash : NodeID) (token : List Nat) (read_only : Bool) :
    Except DhtErrorKind Response × Dht :=
  if !(dht.routing_table.verify_token hash token from_addr) then
    (.error .InvalidToken, dht)
  else
    match (if implied_port then some from_addr
           else port.map (fun actual_port => { from_addr with port := actual_port })) with
    | none => (.error .InsufficientAddress, dht)
    | some addr =>
      let routing_table := record_request dht.routing_table now id addr read_only
      let torrents := torrentsAppend dht.torrents info_hash addr
      (.ok (.OnlyId dht.id), { dht with routing_table := routing_table, torrents := torrents })

/-! ## Concrete traces used to evaluate the routing-table claims -/

/-- A concrete handler state: own id 1, empty announce store, fresh table
with fixed validator secrets. -/
def c10Dht : Dht :=
  { id := 1, torrents := [],
    routing_table := Crawler.RoutingTable.new 1 ⟨1, 2, 3, 4⟩ ⟨5, 6, 7, 8⟩ }


/-- A loopback endpoint with the given port. -/
def addrP (port : Nat) : SocketAddrV4 :=
  { o0 := 127, o1 := 0, o2 := 0, o3 := 1, port := port }

/-- The token the concrete handler state issues for port 7 under the
identity digest. -/
def c10Token : List Nat :=
  c10Dht.routing_table.generate_token id (addrP 7)

/-- Oracle for the bucket-split trace: every ping is answered with the id
twice the pinged port (matching the contact ids below), and no find_node
responses are needed. -/
def c6Oracle : LivenessOracle :=
  { ping := fun a => some (2 * a.port), findNode := fun _ => none }

/-- Contact infos with even ids 2, 4, ..., 18 on ports 1..9: all ids have
bit 0 equal to zero, the owner id 1 has bit 0 equal to one. -/
def c6Info (i : Nat) : NodeInfo :=
  { node_id := 2 * i, address := addrP i }

/-- The table grown from the initial single leaf by nine add_node calls
with owner id 1: the ninth insertion fills the bucket past capacity, every
probe succeeds, and the leaf splits once. -/
def c6Table : RoutingTable :=
  (List.range 9).foldl
    (fun rt i => (rt.add_node c6Oracle 0 (c6Info (i + 1))).1)
    (RoutingTable.new 1)

/-- Seed endpoint of the bootstrap trace. -/
def c5Seed : SocketAddrV4 := addrP 1

/-- The endpoint returned by the seed's find_node response. -/
def c5Second : SocketAddrV4 := addrP 2

/-- Oracle for the bootstrap trace: the seed answers with id 100 and hands
out one further contact (id 101 at `c5Second`); that endpoint answers with
id 102 and no further contacts. -/
def c5Oracle : LivenessOracle :=
  { ping := fun _ => none,
    findNode := fun a =>
      if a = c5Seed then some (100, [{ node_id := 101, address := c5Second }])
      else if a = c5Second then some (102, [])
      else none }

/-- The table produced by bootstrapping an empty table (owner id 5) from
the seed. -/
def c5Table : RoutingTable :=
  (RoutingTable.new 5).bootstrap c5Oracle 0 10 c5Seed

/-! # Theorems

Helper lemmas first, then one theorem per behavioural property (with its
witness or counterexample where applicable).
-/

/-! ## Byte-level facts about the NodeID codec -/

theorem fromBytesBE_append (xs : List Nat) (b : Nat) :
    fromBytesBE (xs ++ [b]) = fromBytesBE xs * 256 + b := by
  simp [fromBytesBE, List.foldl_append]

theorem fromBytesBE_reverse (l : List Nat) :
    fromBytesBE l.reverse = fromBytesLE l := by
  induction l with
  | nil => rfl
  | cons b rest ih =>
      rw [List.reverse_cons, fromBytesBE_append, ih, fromBytesLE]
      ring

theorem toBytesLEAux_spec : ∀ fuel n, n ≤ fuel → fromBytesLE (toBytesLEAux fuel n) = n := by
  intro fuel
  induction fuel with
  | zero =>
      intro n h
      have : n = 0 := by omega
      subst this; rfl
  | succ f ih =>
      intro n h
      cases n with
      | zero => rfl
      | succ m =>
          have hlt : (m + 1) / 256 < m + 1 := Nat.div_lt_self (Nat.succ_pos m) (by omega)
          have h1 : (m + 1) / 256 ≤ f := by omega
          simp only [toBytesLEAux, fromBytesLE, ih _ h1]
          omega

theorem toBytesLEAux_length_le : ∀ fuel n k, n < 256 ^ k → (toBytesLEAux fuel n).length ≤ k := by
  intro fuel
  induction fuel with
  | zero => intro n k _; simp [toBytesLEAux]
  | succ f ih =>
      intro n k hlt
      cases n with
      | zero => simp [toBytesLEAux]
      | succ m =>
          cases k with
          | zero => simp at hlt
          | succ k' =>
              have hdiv : (m + 1) / 256 < 256 ^ k' := by
                rw [Nat.div_lt_iff_lt_mul (by omega : 0 < 256)]
                calc m + 1 < 256 ^ (k' + 1) := hlt
                  _ = 256 ^ k' * 256 := by ring
              have hih := ih ((m + 1) / 256) k' hdiv
              simp only [toBytesLEAux, List.length_cons]
              omega

theorem toBytesLEAux_length_gt : ∀ fuel n k, 256 ^ k ≤ n → n ≤ fuel →
    k < (toBytesLEAux fuel n).length := by
  intro fuel
  induction fuel with
  | zero =>
      intro n k hk hn
      have : 0 < 256 ^ k := Nat.pos_pow_of_pos k (by omega)
      omega
  | succ f ih =>
      intro n k hk hn
      cases n with
      | zero =>
          have : 0 < 256 ^ k := Nat.pos_pow_of_pos k (by omega)
          omega
      | succ m =>
          cases k with
          | zero => simp [toBytesLEAux]
          | succ k' =>
              have hdiv : 256 ^ k' ≤ (m + 1) / 256 := by
                rw [Nat.le_div_iff_mul_le (by omega : 0 < 256)]
                calc 256 ^ k' * 256 = 256 ^ (k' + 1) := by ring
                  _ ≤ m + 1 := hk
              have hlt : (m + 1) / 256 < m + 1 := Nat.div_lt_self (Nat.succ_pos m) (by omega)
              have hih := ih ((m + 1) / 256) k' hdiv (by omega)
              simp only [toBytesLEAux, List.length_cons]
              omega

theorem as_bytes_length (v : NodeID) : v.as_bytes.length = 20 := by
  simp [NodeID.as_bytes]

theorem from_bytes_as_bytes (v : NodeID) (h : v.canonicalWidth) :
    NodeID.from_bytes v.as_bytes = v := by
  rcases h with h0 | ⟨hlo, hhi⟩
  · subst h0; decide
  · have hv0 : v ≠ 0 := by
      have hpos : (0 : Nat) < v := lt_of_lt_of_le (by positivity) hlo
      exact hpos.ne'
    have hlen_le : (toBytesLEAux v v).length ≤ 20 :=
      toBytesLEAux_length_le v v 20
        (by rw [show (256 : Nat) ^ 20 = 2 ^ 160 by norm_num]; exact hhi)
    have hlen_gt : 19 < (toBytesLEAux v v).length :=
      toBytesLEAux_length_gt v v 19
        (by rw [show (256 : Nat) ^ 19 = 2 ^ 152 by norm_num]; exact hlo) le_rfl
    have hlen : (toBytesLEAux v v).reverse.length = 20 := by
      simp; omega
    unfold NodeID.as_bytes toBytesBE
    rw [if_neg hv0, List.take_left' hlen]
    unfold NodeID.from_bytes
    rw [fromBytesBE_reverse]
    exact toBytesLEAux_spec v v le_rfl

/-! ## Field-level codec lemmas -/

@[simp]
theorem strBytes_inj {a b : String} : strBytes a = strBytes b ↔ a = b := by
  constructor
  · intro h
    have hinj : Function.Injective Char.toNat := fun c c' hcc => by
      have h2 := congrArg Char.ofNat hcc
      rwa [Char.ofNat_toNat, Char.ofNat_toNat] at h2
    have h2 : a.toList = b.toList := List.map_injective_iff.mpr hinj h
    cases a; cases b
    simpa [String.toList] using congrArg String.mk (by simpa [String.toList] using h2)
  · intro h; subst h; rfl

theorem addr_deserialize_to_bytes (a : SocketAddrV4) :
    Addr.deserialize (.str (addr_to_bytes a)) = some a := by
  have hport : a.port / 256 * 256 + a.port % 256 = a.port := by omega
  simp [Addr.deserialize, Bencode.asStr, addr_to_bytes, addr_from_bytes, hport]

theorem nodeID_deserialize_as_bytes {v : NodeID} (h : v.canonicalWidth) :
    NodeID.deserialize (.str v.as_bytes) = some v := by
  simp [NodeID.deserialize, Bencode.asStr, as_bytes_length, from_bytes_as_bytes v h]

theorem decodeU8_int {b : Nat} (hb : b < 256) : decodeU8 (Bencode.int b) = some b := by
  have hcond : (0 : Int) ≤ (b : Int) ∧ (b : Int) < 256 := by
    constructor
    · positivity
    · exact_mod_cast hb
  show ((some (b : Int)).bind fun i => if 0 ≤ i ∧ i < 256 then some i.toNat else none) = some b
  rw [Option.some_bind, if_pos hcond, Int.toNat_natCast]

theorem optionMapM_decodeU8 {t : List Nat} (h : ∀ b ∈ t, b < 256) :
    optionMapM decodeU8 (t.map (fun (b : Nat) => Bencode.int (b : Int))) = some t := by
  induction t with
  | nil => rfl
  | cons b rest ih =>
      have hb := decodeU8_int (h b (by simp))
      have hrest := ih (fun x hx => h x (by simp [hx]))
      rw [List.map_cons, optionMapM, hb, Option.some_bind, hrest, Option.map_some']

theorem decodeByteSeq_byteSeqBencode {t : List Nat} (h : ∀ b ∈ t, b < 256) :
    decodeByteSeq (byteSeqBencode t) = some t := by
  show optionMapM decodeU8 (t.map (fun (b : Nat) => Bencode.int (b : Int))) = some t
  exact optionMapM_decodeU8 h

theorem optionMapM_addr (peers : List SocketAddrV4) :
    optionMapM Addr.deserialize (peers.map (fun a => Bencode.str (addr_to_bytes a))) =
      some peers := by
  induction peers with
  | nil => rfl
  | cons a rest ih => simp [optionMapM, addr_deserialize_to_bytes, ih]

theorem optionMapM_nodeID {samples : List NodeID} (h : ∀ s ∈ samples, s.canonicalWidth) :
    optionMapM NodeID.deserialize (samples.map (fun s => Bencode.str s.as_bytes)) =
      some samples := by
  induction samples with
  | nil => rfl
  | cons s rest ih =>
      have hs := nodeID_deserialize_as_bytes (h s (by simp))
      have hrest := ih (fun x hx => h x (by simp [hx]))
      simp [optionMapM, hs, hrest]

theorem to_bytes_length (n : NodeInfo) : n.to_bytes.length = 26 := by
  simp [NodeInfo.to_bytes, as_bytes_length, addr_to_bytes]

theorem nodeInfo_from_bytes_to_bytes {n : NodeInfo} (h : n.node_id.canonicalWidth)
    (rest : List Nat) : NodeInfo.from_bytes (n.to_bytes ++ rest) = n := by
  have haddr : addr_from_bytes (addr_to_bytes n.address ++ rest) = n.address := by
    have hport : n.address.port / 256 * 256 + n.address.port % 256 = n.address.port := by omega
    simp [addr_to_bytes, addr_from_bytes, hport]
  unfold NodeInfo.from_bytes NodeInfo.to_bytes
  rw [List.append_assoc, List.take_left' (as_bytes_length _),
    List.drop_left' (as_bytes_length _), from_bytes_as_bytes _ h, haddr]

theorem flatten_to_bytes_length (ns : List NodeInfo) :
    ((ns.map NodeInfo.to_bytes).flatten).length = 26 * ns.length := by
  induction ns with
  | nil => simp
  | cons n rest ih => simp [to_bytes_length, ih]; ring

theorem parseNodes_flatten {ns : List NodeInfo} (h : ∀ n ∈ ns, n.node_id.canonicalWidth) :
    ∀ fuel, ((ns.map NodeInfo.to_bytes).flatten).length ≤ fuel →
    parseNodesAux fuel ((ns.map NodeInfo.to_bytes).flatten) = ns := by
  induction ns with
  | nil => intro fuel _; cases fuel <;> simp [parseNodesAux]
  | cons n rest ih =>
      intro fuel hlen
      have h26 : n.to_bytes.length = 26 := to_bytes_length n
      have hflat : ((n :: rest).map NodeInfo.to_bytes).flatten
          = n.to_bytes ++ ((rest.map NodeInfo.to_bytes)).flatten := by simp
      have hlentot := flatten_to_bytes_length (n :: rest)
      have hne : n.to_bytes ++ ((rest.map NodeInfo.to_bytes)).flatten ≠ [] := by
        intro hemp
        have := congrArg List.length hemp
        simp [h26] at this
      cases fuel with
      | zero =>
          exfalso
          rw [hlentot] at hlen
          simp at hlen
      | succ f =>
          rw [hflat, parseNodesAux, if_neg hne,
            nodeInfo_from_bytes_to_bytes (h n (by simp)) _, List.drop_left' h26,
            ih (fun x hx => h x (by simp [hx])) f ?_]
          have := flatten_to_bytes_length rest
          rw [hflat] at hlen
          have hl2 := congrArg List.length hflat
          simp [h26] at hlen ⊢
          omega

theorem node_info_deserialize_nodesBencode {ns : List NodeInfo}
    (h : ∀ n ∈ ns, n.node_id.canonicalWidth) :
    node_info_deserialize (nodesBencode ns) = some ns := by
  have hmod : ((ns.map NodeInfo.to_bytes).flatten).length % 26 = 0 := by
    rw [flatten_to_bytes_length]; omega
  show ((some ((ns.map NodeInfo.to_bytes).flatten)).bind fun s =>
      if s.length % 26 = 0 then some (parseNodesAux s.length s) else none) = some ns
  rw [Option.some_bind, if_pos hmod, parseNodes_flatten h _ le_rfl]

/-! ## Payload-level decode lemmas -/

theorem decodeU16_int {p : Nat} (hp : p < 65536) : decodeU16 (Bencode.int p) = some p := by
  have hcond : (0 : Int) ≤ (p : Int) ∧ (p : Int) < 65536 := by
    constructor
    · positivity
    · exact_mod_cast hp
  show ((some (p : Int)).bind fun i => if 0 ≤ i ∧ i < 65536 then some i.toNat else none) = some p
  rw [Option.some_bind, if_pos hcond, Int.toNat_natCast]

theorem booleans_roundtrip (b : Bool) : booleans_deserialize (boolBencode b) = some b := by
  cases b <;> rfl

theorem query_deserialize_encoded {q : Query} (h : q.wf) :
    Query.deserialize (strBytes q.encoded.1) q.encoded.2 = some q := by
  cases q with
  | Ping id =>
      simp only [Query.wf] at h
      simp [Query.deserialize, Query.encoded, Bencode.asDict, dictGet,
        nodeID_deserialize_as_bytes h]
  | FindNode id target =>
      obtain ⟨h1, h2⟩ := h
      simp [Query.deserialize, Query.encoded, Bencode.asDict, dictGet,
        nodeID_deserialize_as_bytes h1, nodeID_deserialize_as_bytes h2]
  | GetPeers id info_hash =>
      obtain ⟨h1, h2⟩ := h
      simp [Query.deserialize, Query.encoded, Bencode.asDict, dictGet,
        nodeID_deserialize_as_bytes h1, nodeID_deserialize_as_bytes h2]
  | AnnouncePeer id implied_port port info_hash token =>
      obtain ⟨h1, hport, h3⟩ := h
      cases port with
      | none =>
          simp [Query.deserialize, Query.encoded, Bencode.asDict, dictGet, optField,
            optGet, Bencode.asStr, booleans_roundtrip,
            nodeID_deserialize_as_bytes h1, nodeID_deserialize_as_bytes h3]
      | some p =>
          have hp : p < 65536 := hport p (by simp)
          simp [Query.deserialize, Query.encoded, Bencode.asDict, dictGet, optField,
            optGet, Bencode.asStr, booleans_roundtrip, decodeU16_int hp,
            nodeID_deserialize_as_bytes h1, nodeID_deserialize_as_bytes h3]
  | SampleInfoHashes id target =>
      obtain ⟨h1, h2⟩ := h
      simp [Query.deserialize, Query.encoded, Bencode.asDict, dictGet,
        nodeID_deserialize_as_bytes h1, nodeID_deserialize_as_bytes h2]

theorem response_deserialize_encoded {r : Response} (h : r.wf)
    (hns : r.isSamples = false) : Response.deserialize r.encoded = some r := by
  cases r with
  | NextHop id token nodes =>
      obtain ⟨h1, htok, hnodes⟩ := h
      cases token with
      | none =>
          simp [Response.deserialize, Response.tryNextHop, Response.encoded,
            Bencode.asDict, dictGet, optField, optGet,
            nodeID_deserialize_as_bytes h1, node_info_deserialize_nodesBencode hnodes]
      | some tok =>
          have htok' : ∀ b ∈ tok, b < 256 := htok tok (by simp)
          simp [Response.deserialize, Response.tryNextHop, Response.encoded,
            Bencode.asDict, dictGet, optField, optGet,
            nodeID_deserialize_as_bytes h1, node_info_deserialize_nodesBencode hnodes,
            decodeByteSeq_byteSeqBencode htok']
  | GetPeers id token peers =>
      obtain ⟨h1, htok⟩ := h
      cases token with
      | none =>
          simp [Response.deserialize, Response.tryNextHop, Response.tryGetPeers,
            Response.encoded, Bencode.asDict, dictGet, optField, optGet,
            nodeID_deserialize_as_bytes h1, optionMapM_addr]
      | some tok =>
          have htok' : ∀ b ∈ tok, b < 256 := htok tok (by simp)
          simp [Response.deserialize, Response.tryNextHop, Response.tryGetPeers,
            Response.encoded, Bencode.asDict, dictGet, optField, optGet,
            nodeID_deserialize_as_bytes h1, optionMapM_addr,
            decodeByteSeq_byteSeqBencode htok']
  | OnlyId id =>
      simp only [Response.wf] at h
      simp [Response.deserialize, Response.tryNextHop, Response.tryGetPeers,
        Response.tryOnlyId, Response.encoded, Bencode.asDict, dictGet, optGet,
        nodeID_deserialize_as_bytes h]
  | Samples id interval nodes num samples => simp [Response.isSamples] at hns

theorem protocolError_deserialize_encoded {e : ProtocolError} (h : e.code < 256) :
    ProtocolError.deserialize e.encoded = some e := by
  obtain ⟨code, message⟩ := e
  simp only [ProtocolError.encoded, ProtocolError.deserialize]
  simp [decodeU8_int h, Bencode.asStr]

/-! ## C2: codec round trip -/

set_option maxHeartbeats 2000000 in
/-- Bencode-value-level round trip: deserializing inverts serde
serialization for every well-typed envelope whose node ids are canonically
sized and whose response body is not the Samples variant. -/
theorem decodeMessage_encodeMessage {m : Message} (h : m.wf)
    (hns : m.isSamplesResponse = false) :
    decodeMessage (encodeMessage m) = some m := by
  obtain ⟨ip, t, ver, mt, ro⟩ := m
  cases mt with
  | query q =>
      simp only [Message.wf] at h
      have hq := query_deserialize_encoded h
      cases ip <;> cases ver <;> cases ro <;>
        simp [decodeMessage, encodeMessage, optField, dictGet, optGet,
          Bencode.asDict, Bencode.asStr, booleans_deserialize, Bencode.asInt,
          addr_deserialize_to_bytes, hq]
  | response r =>
      simp only [Message.wf] at h
      simp only [Message.isSamplesResponse] at hns
      have hr := response_deserialize_encoded h hns
      cases ip <;> cases ver <;> cases ro <;>
        simp [decodeMessage, encodeMessage, optField, dictGet, optGet,
          Bencode.asDict, Bencode.asStr, booleans_deserialize, Bencode.asInt,
          addr_deserialize_to_bytes, hr]
  | error e =>
      simp only [Message.wf] at h
      have he := protocolError_deserialize_encoded h
      cases ip <;> cases ver <;> cases ro <;>
        simp [decodeMessage, encodeMessage, optField, dictGet, optGet,
          Bencode.asDict, Bencode.asStr, booleans_deserialize, Bencode.asInt,
          addr_deserialize_to_bytes, he]

/-! ## Bencode byte framing: parsing inverts rendering -/

theorem natDecimalAux_digits : ∀ fuel n, ∀ c ∈ natDecimalAux fuel n, 48 ≤ c ∧ c ≤ 57 := by
  intro fuel
  induction fuel with
  | zero => intro n c hc; simp [natDecimalAux] at hc
  | succ f ih =>
      intro n c hc
      cases n with
      | zero => simp [natDecimalAux] at hc
      | succ m =>
          simp only [natDecimalAux, List.mem_cons] at hc
          rcases hc with hc | hc
          · subst hc
            have : (m + 1) % 10 < 10 := Nat.mod_lt _ (by omega)
            omega
          · exact ih _ c hc

theorem natDecimal_digits {n c : Nat} (hc : c ∈ natDecimal n) : isDigit c = true := by
  unfold natDecimal at hc
  by_cases h0 : n = 0
  · rw [if_pos h0] at hc
    simp at hc
    simp [isDigit, hc]
  · rw [if_neg h0] at hc
    rw [List.mem_reverse] at hc
    have := natDecimalAux_digits n n c hc
    simp [isDigit]
    omega

theorem natDecimal_ne_nil (n : Nat) : natDecimal n ≠ [] := by
  unfold natDecimal
  by_cases h0 : n = 0
  · simp [h0]
  · rw [if_neg h0]
    cases n with
    | zero => omega
    | succ m => simp [natDecimalAux]

theorem digitsToNat_append (xs : List Nat) (d : Nat) :
    digitsToNat (xs ++ [d]) = digitsToNat xs * 10 + (d - 48) := by
  simp [digitsToNat, List.foldl_append]

theorem digitsToNat_reverse (l : List Nat) : digitsToNat l.reverse = digitsLEVal l := by
  induction l with
  | nil => rfl
  | cons d rest ih =>
      rw [List.reverse_cons, digitsToNat_append, ih, digitsLEVal]
      ring

theorem digitsLEVal_natDecimalAux : ∀ fuel n, n ≤ fuel →
    digitsLEVal (natDecimalAux fuel n) = n := by
  intro fuel
  induction fuel with
  | zero =>
      intro n h
      have : n = 0 := by omega
      subst this; rfl
  | succ f ih =>
      intro n h
      cases n with
      | zero => rfl
      | succ m =>
          have hlt : (m + 1) / 10 < m + 1 := Nat.div_lt_self (Nat.succ_pos m) (by omega)
          have h1 : (m + 1) / 10 ≤ f := by omega
          simp only [natDecimalAux, digitsLEVal, ih _ h1]
          have hmod : (m + 1) % 10 < 10 := Nat.mod_lt _ (by omega)
          omega

theorem digitsToNat_natDecimal (n : Nat) : digitsToNat (natDecimal n) = n := by
  unfold natDecimal
  by_cases h0 : n = 0
  · simp [h0, digitsToNat]
  · rw [if_neg h0, digitsToNat_reverse, digitsLEVal_natDecimalAux n n le_rfl]

theorem takeDigits_append {ds rest : List Nat} (hds : ∀ c ∈ ds, isDigit c = true)
    (hrest : ∀ c, rest.head? = some c → isDigit c = false) :
    takeDigits (ds ++ rest) = (ds, rest) := by
  induction ds with
  | nil =>
      cases rest with
      | nil => rfl
      | cons c r =>
          have := hrest c rfl
          simp [takeDigits, this]
  | cons d ds' ih =>
      have hd : isDigit d = true := hds d (by simp)
      have := ih (fun c hc => hds c (by simp [hc]))
      simp [takeDigits, hd, this]

theorem bytesToKey_strBytes (k : String) : bytesToKey (strBytes k) = k := by
  unfold bytesToKey strBytes
  rw [List.map_map]
  have : (Char.ofNat ∘ Char.toNat) = id := funext fun c => Char.ofNat_toNat c
  rw [this, List.map_id]
  cases k; rfl

theorem parseByteString_serialized (s rest : List Nat) :
    parseByteString (natDecimal s.length ++ 58 :: (s ++ rest)) = some (s, rest) := by
  have htd : takeDigits (natDecimal s.length ++ 58 :: (s ++ rest))
      = (natDecimal s.length, 58 :: (s ++ rest)) :=
    takeDigits_append (fun c hc => natDecimal_digits hc)
      (fun c hc => by
        simp at hc
        subst hc
        rfl)
  unfold parseByteString
  rw [htd]
  simp [natDecimal_ne_nil, digitsToNat_natDecimal, List.take_left, List.drop_left]

theorem bencodeSerialize_head_bound : ∀ fs v, serializeOK fs v = true →
    ∃ c cs, bencodeSerialize fs v = c :: cs ∧ 48 ≤ c ∧ c ≤ 108 ∧ c ≠ 101 := by
  intro fs v hok
  cases fs with
  | zero => simp [serializeOK] at hok
  | succ f =>
    cases v with
    | int i => exact ⟨105, _, rfl, by omega, by omega, by omega⟩
    | str s =>
        obtain ⟨c, cs, hc⟩ := List.exists_cons_of_ne_nil (natDecimal_ne_nil s.length)
        have hd : isDigit c = true := natDecimal_digits (by rw [hc]; simp)
        simp only [isDigit, Bool.and_eq_true, decide_eq_true_eq] at hd
        refine ⟨c, cs ++ 58 :: s, ?_, by omega, by omega, by omega⟩
        simp [bencodeSerialize, hc]
    | list xs => exact ⟨108, _, rfl, by omega, by omega, by omega⟩
    | dict xs => exact ⟨100, _, rfl, by omega, by omega, by omega⟩

theorem bencodeParse_int (i : Int) (fp : Nat) (rest : List Nat)
    (h : (105 :: (intDecimal i ++ [101])).length < fp) :
    bencodeParse fp ((105 :: (intDecimal i ++ [101])) ++ rest) = some (.int i, rest) := by
  cases fp with
  | zero => omega
  | succ fp' =>
    by_cases hneg : i < 0
    · have hser : intDecimal i = 45 :: natDecimal i.natAbs := by
        unfold intDecimal; rw [if_pos hneg]
      have htd : takeDigits (natDecimal i.natAbs ++ 101 :: rest)
          = (natDecimal i.natAbs, 101 :: rest) :=
        takeDigits_append (fun c hc => natDecimal_digits hc)
          (fun c hc => by simp at hc; subst hc; rfl)
      have hval : -(digitsToNat (natDecimal i.natAbs) : Int) = i := by
        rw [digitsToNat_natDecimal]
        omega
      simp [hser, bencodeParse, htd, natDecimal_ne_nil, hval]
    · have hser : intDecimal i = natDecimal i.natAbs := by
        unfold intDecimal; rw [if_neg hneg]
      obtain ⟨c, cs, hc⟩ := List.exists_cons_of_ne_nil (natDecimal_ne_nil i.natAbs)
      have hdig : isDigit c = true := natDecimal_digits (by rw [hc]; simp)
      have hc45 : c ≠ 45 := by
        simp only [isDigit, Bool.and_eq_true, decide_eq_true_eq] at hdig
        omega
      have htd : takeDigits (natDecimal i.natAbs ++ 101 :: rest)
          = (natDecimal i.natAbs, 101 :: rest) :=
        takeDigits_append (fun c' hc' => natDecimal_digits hc')
          (fun c' hc' => by simp at hc'; subst hc'; rfl)
      have hval : (digitsToNat (natDecimal i.natAbs) : Int) = i := by
        rw [digitsToNat_natDecimal]
        omega
      have htail : intDecimal i ++ 101 :: rest = natDecimal i.natAbs ++ 101 :: rest := by
        rw [hser]
      have hif : ((natDecimal i.natAbs).head? = some 45) = False := by
        rw [hc]
        simp [hc45]
      simp [bencodeParse, htail, hif, htd, natDecimal_ne_nil, hval, hneg]

theorem bencodeParse_str (s : List Nat) (fp : Nat) (rest : List Nat)
    (h : (natDecimal s.length ++ 58 :: s).length < fp) :
    bencodeParse fp ((natDecimal s.length ++ 58 :: s) ++ rest) = some (.str s, rest) := by
  cases fp with
  | zero => omega
  | succ fp' =>
    obtain ⟨c, cs, hc⟩ := List.exists_cons_of_ne_nil (natDecimal_ne_nil s.length)
    have hdig : isDigit c = true := natDecimal_digits (by rw [hc]; simp)
    have hbounds : 48 ≤ c ∧ c ≤ 57 := by
      simp only [isDigit, Bool.and_eq_true, decide_eq_true_eq] at hdig
      exact hdig
    have hps := parseByteString_serialized s rest
    have hform : (natDecimal s.length ++ 58 :: s) ++ rest
        = c :: (cs ++ 58 :: (s ++ rest)) := by
      rw [hc]; simp
    rw [hform]
    have h105 : c ≠ 105 := by omega
    have h108 : c ≠ 108 := by omega
    have h100 : c ≠ 100 := by omega
    simp only [bencodeParse, if_neg h105, if_neg h108, if_neg h100, if_pos hdig]
    have hback : c :: (cs ++ 58 :: (s ++ rest)) = natDecimal s.length ++ 58 :: (s ++ rest) := by
      rw [hc]; simp
    rw [hback, hps]
    rfl

theorem bencodeParse_serialize : ∀ fs,
    (∀ v, serializeOK fs v = true → ∀ fp rest, (bencodeSerialize fs v).length < fp →
      bencodeParse fp (bencodeSerialize fs v ++ rest) = some (v, rest))
    ∧ (∀ xs, xs.all (serializeOK fs) = true → ∀ fp rest,
        (bencodeSerializeItems fs xs).length + 1 < fp →
        bencodeParseItems fp (bencodeSerializeItems fs xs ++ 101 :: rest) = some (xs, rest))
    ∧ (∀ xs, xs.all (fun kv => serializeOK fs kv.2) = true → ∀ fp rest,
        (bencodeSerializeEntries fs xs).length + 1 < fp →
        bencodeParseEntries fp (bencodeSerializeEntries fs xs ++ 101 :: rest) = some (xs, rest)) := by
  intro fs
  induction fs with
  | zero =>
      refine ⟨?_, ?_, ?_⟩
      · intro v hok
        simp [serializeOK] at hok
      · intro xs hall fp rest hlen
        cases xs with
        | nil =>
            cases fp with
            | zero => omega
            | succ fp' => simp [bencodeSerializeItems, bencodeParseItems]
        | cons x xs' => simp [List.all_cons, serializeOK] at hall
      · intro xs hall fp rest hlen
        cases xs with
        | nil =>
            cases fp with
            | zero => omega
            | succ fp' => simp [bencodeSerializeEntries, bencodeParseEntries]
        | cons x xs' => simp [List.all_cons, serializeOK] at hall
  | succ f ih =>
      obtain ⟨ihV, ihI, ihE⟩ := ih
      have hV : ∀ v, serializeOK (f + 1) v = true → ∀ fp rest,
          (bencodeSerialize (f + 1) v).length < fp →
          bencodeParse fp (bencodeSerialize (f + 1) v ++ rest) = some (v, rest) := by
        intro v hok fp rest hlen
        cases v with
        | int i => exact bencodeParse_int i fp rest hlen
        | str s => exact bencodeParse_str s fp rest hlen
        | list xs =>
            simp only [serializeOK] at hok
            simp only [bencodeSerialize] at hlen ⊢
            cases fp with
            | zero => omega
            | succ fp' =>
                have hitems := ihI xs hok fp' rest (by simp at hlen; omega)
                simp [bencodeParse, hitems]
        | dict xs =>
            simp only [serializeOK] at hok
            simp only [bencodeSerialize] at hlen ⊢
            cases fp with
            | zero => omega
            | succ fp' =>
                have hentries := ihE xs hok fp' rest (by simp at hlen; omega)
                simp [bencodeParse, hentries]
      refine ⟨hV, ?_, ?_⟩
      · intro xs
        induction xs with
        | nil =>
            intro _ fp rest hlen
            cases fp with
            | zero => omega
            | succ fp' => simp [bencodeSerializeItems, bencodeParseItems]
        | cons x xs' ihxs =>
            intro hall fp rest hlen
            simp only [List.all_cons, Bool.and_eq_true] at hall
            obtain ⟨hx, hxs'⟩ := hall
            simp only [bencodeSerializeItems] at hlen ⊢
            obtain ⟨c, cs, hcons, hb1, hb2, hb3⟩ := bencodeSerialize_head_bound (f + 1) x hx
            have hlenx : 0 < (bencodeSerialize (f + 1) x).length := by
              rw [hcons]; simp
            cases fp with
            | zero => omega
            | succ fp' =>
                have hxparse := hV x hx fp'
                  (bencodeSerializeItems (f + 1) xs' ++ 101 :: rest)
                  (by simp at hlen; omega)
                have hxsparse := ihxs hxs' fp' rest (by simp at hlen; omega)
                have hif : ((bencodeSerialize (f + 1) x
                    ++ (bencodeSerializeItems (f + 1) xs' ++ 101 :: rest)).head? = some 101)
                    = False := by
                  rw [hcons]
                  simp
                  omega
                simp only [bencodeParseItems, List.append_assoc, hif, if_false]
                rw [hxparse, Option.some_bind, hxsparse, Option.map_some']
      · intro xs
        induction xs with
        | nil =>
            intro _ fp rest hlen
            cases fp with
            | zero => omega
            | succ fp' => simp [bencodeSerializeEntries, bencodeParseEntries]
        | cons kv xs' ihxs =>
            obtain ⟨k, v⟩ := kv
            intro hall fp rest hlen
            simp only [List.all_cons, Bool.and_eq_true] at hall
            obtain ⟨hv, hxs'⟩ := hall
            simp only [bencodeSerializeEntries] at hlen ⊢
            obtain ⟨c, cs, hcons⟩ := List.exists_cons_of_ne_nil
              (natDecimal_ne_nil (strBytes k).length)
            have hdig : isDigit c = true := natDecimal_digits (by rw [hcons]; simp)
            have hbounds : 48 ≤ c ∧ c ≤ 57 := by
              simp only [isDigit, Bool.and_eq_true, decide_eq_true_eq] at hdig
              exact hdig
            have hlennd : 0 < (natDecimal (strBytes k).length).length := by
              rw [hcons]; simp
            cases fp with
            | zero => omega
            | succ fp' =>
                have hvparse := hV v hv fp'
                  (bencodeSerializeEntries (f + 1) xs' ++ 101 :: rest)
                  (by simp at hlen; omega)
                have hxsparse := ihxs hxs' fp' rest (by simp at hlen; omega)
                have hps := parseByteString_serialized (strBytes k)
                  (bencodeSerialize (f + 1) v ++ (bencodeSerializeEntries (f + 1) xs' ++ 101 :: rest))
                have hif : (((natDecimal (strBytes k).length
                    ++ 58 :: (strBytes k ++ bencodeSerialize (f + 1) v
                      ++ bencodeSerializeEntries (f + 1) xs'))
                    ++ 101 :: rest).head? = some 101) = False := by
                  rw [hcons]
                  simp
                  omega
                simp only [List.append_assoc, List.cons_append] at hif hps ⊢
                simp only [bencodeParseEntries, hif, if_false]
                rw [hps, Option.some_bind, hvparse, Option.some_bind, hxsparse,
                  Option.map_some', bytesToKey_strBytes]

theorem serializeOK_query_encoded (q : Query) : serializeOK 7 q.encoded.2 = true := by
  cases q with
  | AnnouncePeer id implied_port port info_hash token =>
      cases port <;> simp [Query.encoded, serializeOK, optField, List.all_eq_true]
  | _ => simp [Query.encoded, serializeOK, List.all_eq_true]

theorem serializeOK_response_encoded (r : Response) : serializeOK 7 r.encoded = true := by
  cases r with
  | NextHop id token nodes =>
      cases token <;>
        simp [Response.encoded, serializeOK, optField, byteSeqBencode, nodesBencode,
          List.all_eq_true]
  | GetPeers id token peers =>
      cases token <;>
        simp [Response.encoded, serializeOK, optField, byteSeqBencode, List.all_eq_true]
  | OnlyId id => simp [Response.encoded, serializeOK, List.all_eq_true]
  | Samples id interval nodes num samples =>
      cases interval <;> cases num <;>
        simp [Response.encoded, serializeOK, optField, nodesBencode, List.all_eq_true]

theorem serializeOK_error_encoded (e : ProtocolError) : serializeOK 7 e.encoded = true := by
  simp [ProtocolError.encoded, serializeOK, List.all_eq_true]

theorem serializeOK_encodeMessage (m : Message) : serializeOK 8 (encodeMessage m) = true := by
  obtain ⟨ip, t, ver, mt, ro⟩ := m
  cases mt <;> cases ip <;> cases ver <;> cases ro <;>
    simp [encodeMessage, serializeOK, optField, List.all_append, List.all_eq_true,
      serializeOK_query_encoded, serializeOK_response_encoded, serializeOK_error_encoded]

/-- C2 (amended): for every well-typed envelope all of whose node ids are
canonically sized (zero or with a nonzero leading byte in the 20-byte
big-endian form) and whose response body is not the Samples variant,
`Message::decode` inverts `Message::encode` byte-for-byte. -/
theorem c2_roundtrip_amended {m : Message} (h : m.wf)
    (hns : m.isSamplesResponse = false) :
    Message.decode (Message.encode m) = some m := by
  have hok := serializeOK_encodeMessage m
  have hp := (bencodeParse_serialize 8).1 (encodeMessage m) hok
    ((bencodeSerialize 8 (encodeMessage m)).length + 1) [] (by omega)
  rw [List.append_nil] at hp
  unfold Message.decode Message.encode
  rw [hp, Option.some_bind]
  show (if ([] : List Nat) = [] then decodeMessage (encodeMessage m) else none) = some m
  rw [if_pos rfl, decodeMessage_encodeMessage h hns]

/-- C2 witness: the amended round trip evaluated on the repository's own
ping test vector. -/
theorem c2_roundtrip_amended_witness :
    (Message.wf pingEnvelope ∧ pingEnvelope.isSamplesResponse = false)
      ∧ Message.decode (Message.encode pingEnvelope) = some pingEnvelope :=
  ⟨⟨by decide, by decide⟩, c2_roundtrip_amended (by decide) (by decide)⟩

/-- C2 counterexample: the claim fails as stated. A well-typed Samples
response envelope (canonical id, empty lists) decodes after encoding to a
NextHop envelope, not to itself: the untagged decoder tries NextHop first
and ignores the unknown sampling fields. -/
theorem c2_samples_misdecode :
    Message.decode (Message.encode samplesEnvelope) = some samplesEnvelopeDecoded
      ∧ samplesEnvelopeDecoded ≠ samplesEnvelope
      ∧ Message.decode (Message.encode samplesEnvelope) ≠ some samplesEnvelope := by
  refine ⟨by decide, by decide, by decide⟩

/-! ## C1 and C3: NodeID bit order and byte padding -/

/-- C1: the claim is false on the code. For the id built from the 20-byte
big-endian array 0x80 00 ... 00 (top bit of the first, most significant
byte set), `nth_bit(0)` returns false and `nth_bit(159)` returns true; for
the id built from 00 ... 00 01, `nth_bit(0)` returns true. `nth_bit(n)`
reads bit `n` from the least significant end (`(value >> n) & 1`), not bit
`159 - n` as the claim and the function's own doc comment state. -/
theorem c1_nth_bit_reads_lsb_first :
    (NodeID.from_bytes (128 :: List.replicate 19 0)).nth_bit 0 = false
      ∧ (NodeID.from_bytes (128 :: List.replicate 19 0)).nth_bit 159 = true
      ∧ (NodeID.from_bytes (List.replicate 19 0 ++ [1])).nth_bit 0 = true := by
  refine ⟨by decide, by decide, by decide⟩

/-- C3: the claim is false on the code. The NodeID of value 1 serializes to
0x01 followed by nineteen zero bytes (`Vec::resize` appends padding on the
least-significant side), not nineteen zeros followed by 0x01; re-reading
those bytes big-endian yields 2^152, not 1, so the round trip fails. -/
theorem c3_as_bytes_pads_low_side :
    NodeID.as_bytes 1 = 1 :: List.replicate 19 0
      ∧ NodeID.as_bytes 1 ≠ List.replicate 19 0 ++ [1]
      ∧ NodeID.from_bytes (NodeID.as_bytes 1) = 2 ^ 152
      ∧ NodeID.from_bytes (NodeID.as_bytes 1) ≠ 1 := by
  refine ⟨by decide, by decide, by decide, by decide⟩

/-! ## C4: transaction registry -/

theorem txLookup_txRemove (t : TransactionId) (m : TxMap) :
    txLookup t (txRemove t m) = none := by
  induction m with
  | nil => rfl
  | cons e rest ih =>
      by_cases he : e.1 = t
      · simpa [txRemove, List.filter, he] using ih
      · simpa [txRemove, List.filter, he, txLookup] using ih

theorem txLookup_txInsert (t : TransactionId) (v : TxState) (m : TxMap) :
    txLookup t (txInsert t v m) = some v := by
  simp [txInsert, txLookup]

theorem parse_transactionIdBytes {t : Nat} (h : t < 4294967296) :
    parse_originating_transaction_id (transactionIdBytes t) = .ok t := by
  unfold parse_originating_transaction_id
  rw [if_neg (by simp [transactionIdBytes])]
  have hval : fromBytesBE (transactionIdBytes t) = t := by
    unfold fromBytesBE transactionIdBytes
    simp [List.foldl]
    omega
  rw [hval]

/-- C4 counterexample: the claim is false as stated. Registering a token
already present in the registry succeeds and replaces the existing entry:
after a response has been recorded for token 7, a second `add_transaction 7`
leaves the entry in state AwaitingResponse with no waker, discarding the
stored response. -/
theorem c4_reregistration_replaces :
    handle_response c4Envelope (add_transaction 7 []) = .ok [(7, .GotResponse c4Envelope)]
      ∧ txLookup 7 (add_transaction 7 [(7, .GotResponse c4Envelope)])
          = some (.AwaitingResponse none)
      ∧ txLookup 7 (add_transaction 7 [(7, .GotResponse c4Envelope)])
          ≠ some (.GotResponse c4Envelope) := by
  refine ⟨by decide, by decide, by decide⟩

/-- C4 (amended): registering a token always succeeds and installs a fresh
awaiting entry, replacing any existing entry for that token; removing a
registered token deletes its entry, so a subsequent completion reports
UnknownTransactionReceived and a subsequent poll reports
UnknownTransactionPolled for that token. -/
theorem c4_registry_amended (t : TransactionId) (m : TxMap) (w : Nat)
    (body : ResponseType) (h : t < 4294967296) :
    txLookup t (add_transaction t m) = some (.AwaitingResponse none)
      ∧ txLookup t (drop_transaction t m) = none
      ∧ handle_response { transaction_id := transactionIdBytes t, response := body }
          (drop_transaction t m) = .error (.UnknownTransactionReceived t)
      ∧ poll_response t w (drop_transaction t m) = .error (.UnknownTransactionPolled t) := by
  refine ⟨txLookup_txInsert t _ m, txLookup_txRemove t m, ?_, ?_⟩
  · simp [handle_response, parse_transactionIdBytes h, txLookup_txRemove, drop_transaction]
  · simp [poll_response, txLookup_txRemove, drop_transaction]

/-- C4 witness: the amended registry behaviour at token 5 on the empty
registry. -/
theorem c4_registry_amended_witness :
    txLookup 5 (add_transaction 5 []) = some (.AwaitingResponse none)
      ∧ txLookup 5 (drop_transaction 5 []) = none
      ∧ handle_response ⟨transactionIdBytes 5, .response (.OnlyId 9)⟩ (drop_transaction 5 [])
          = .error (.UnknownTransactionReceived 5)
      ∧ poll_response 5 0 (drop_transaction 5 []) = .error (.UnknownTransactionPolled 5) :=
  c4_registry_amended 5 [] 0 (.response (.OnlyId 9)) (by decide)

/-! ## C5 and C6: bootstrap endpoint pairing and split orientation -/

/-- C5: the claim is false on the code. In the bootstrap trace where the
seed (port 1) answers with id 100 and hands out the endpoint with port 2,
and that endpoint answers with id 102, the routing table ends up holding
both responders under the seed address: the `NodeInfo` built in the loop
uses the `bootstrap` parameter `address` instead of the popped endpoint, so
id 102 is stored with the seed's endpoint and no contact carries the
actually queried endpoint. -/
theorem c5_bootstrap_records_seed_address :
    ((treeContacts c5Table.root).map (fun c => (c.id, c.address)))
        = [(100, c5Seed), (102, c5Seed)]
      ∧ (∀ c ∈ treeContacts c5Table.root, c.address ≠ c5Second) := by
  refine ⟨by decide, by decide⟩

/-- C6: the claim is false on the code. After nine insertions with owner
id 1 (all contacts with an even id, every probe succeeding), the single
split has produced exactly one Near leaf, but the leaf reached by
descending on the owner's own id is the Far one: `split` sends one-bit
contacts to the right child and marks the owner-bit side Near, while
`find_bucket_mut_recursive` descends left on a one bit, so the descent path
contains no Near leaf. -/
theorem c6_owner_descent_reaches_far_leaf :
    (findBucketLeaf c6Table.root 1 0).leaf_type = .Far
      ∧ countNearLeaves c6Table.root = 1
      ∧ (treeContacts c6Table.root).length = 9 := by
  refine ⟨by decide, by decide, by decide⟩

/-! ## C7: contact-state classification -/

/-- C7: for every contact and evaluation instant, the classification is
total and mutually exclusive: the state is Bad exactly when at least two
queries have failed; otherwise it is Good exactly when a successful query
to the node landed within the last 15 minutes, or some successful query to
it has ever landed and a request from it landed within the last 15
minutes; and Questionable exactly otherwise. Moreover
`mark_successful_query` zeroes the failure count, so a Bad contact is no
longer Bad after one successful query. -/
theorem c7_state_classification :
    (∀ (c : NodeContactState) (now : Int),
      (c.state now = .Bad ↔ c.failed_queries ≥ 2)
      ∧ (c.state now = .Good ↔ (c.failed_queries < 2 ∧
          ((∃ q, c.last_successful_query_to = some q ∧ minutesSince now q < 15)
            ∨ (c.last_successful_query_to ≠ none
                ∧ ∃ rf, c.last_request_from = some rf ∧ minutesSince now rf < 15))))
      ∧ (c.state now = .Questionable ↔ (c.failed_queries < 2 ∧
          ¬ ((∃ q, c.last_successful_query_to = some q ∧ minutesSince now q < 15)
            ∨ (c.last_successful_query_to ≠ none
                ∧ ∃ rf, c.last_request_from = some rf ∧ minutesSince now rf < 15)))))
    ∧ (∀ (c : NodeContactState) (t now₂ : Int),
        (c.mark_successful_query t).failed_queries = 0
        ∧ (c.mark_successful_query t).state now₂ ≠ .Bad) := by
  constructor
  · intro c now
    obtain ⟨cid, caddr, lsq, lrf, fq⟩ := c
    by_cases h2 : fq ≥ 2
    · refine ⟨by simp [NodeContactState.state, h2], ?_, ?_⟩ <;>
        simp [NodeContactState.state, h2] <;> omega
    · rcases lsq with _ | q
      · rcases lrf with _ | rf <;>
          refine ⟨by simp [NodeContactState.state, h2], ?_, ?_⟩ <;>
          simp [NodeContactState.state, h2] <;> omega
      · rcases lrf with _ | rf
        · by_cases hq : minutesSince now q < 15 <;>
            refine ⟨by simp [NodeContactState.state, h2, hq], ?_, ?_⟩ <;>
            simp [NodeContactState.state, h2, hq] <;> omega
        · by_cases hq : minutesSince now q < 15
          · refine ⟨by simp [NodeContactState.state, h2, hq], ?_, ?_⟩ <;>
              simp [NodeContactState.state, h2, hq] <;> omega
          · by_cases hrf : minutesSince now rf < 15 <;>
              refine ⟨by simp [NodeContactState.state, h2, hq, hrf], ?_, ?_⟩ <;>
              simp [NodeContactState.state, h2, hq, hrf] <;> omega
  · intro c t now₂
    refine ⟨rfl, ?_⟩
    obtain ⟨cid, caddr, lsq, lrf, fq⟩ := c
    by_cases hq : minutesSince now₂ t < 15 <;>
      rcases lrf with _ | rf <;>
      simp [NodeContactState.state, NodeContactState.mark_successful_query, hq] <;>
      split <;> simp

/-! ## C8: token validator lifecycle -/

/-- C8: under any injective digest, a token issued for an address verifies
for that address immediately and still verifies after one rotation; after
a second rotation it fails verification, provided the two freshly drawn
secrets differ from the secret current at issuance. -/
theorem c8_token_lifecycle (hash : List Nat → List Nat) (hinj : Function.Injective hash)
    (addr : SocketAddrV4) (s0 sInit s1 s2 : Secret)
    (h1 : s1 ≠ s0) (h2 : s2 ≠ s0) :
    (TokenValidator.mk s0 sInit).verify_token hash addr
        ((TokenValidator.mk s0 sInit).generate_token hash addr) = true
      ∧ ((TokenValidator.mk s0 sInit).rotate_tokens s1).verify_token hash addr
          ((TokenValidator.mk s0 sInit).generate_token hash addr) = true
      ∧ (((TokenValidator.mk s0 sInit).rotate_tokens s1).rotate_tokens s2).verify_token hash addr
          ((TokenValidator.mk s0 sInit).generate_token hash addr) = false := by
  have hgen : ∀ s s' : Secret, s ≠ s' →
      generate_token' hash addr s ≠ generate_token' hash addr s' := by
    intro s s' hne heq
    apply hne
    have hb := hinj heq
    have := List.append_cancel_left hb
    obtain ⟨a, b, c, d⟩ := s
    obtain ⟨a', b', c', d'⟩ := s'
    simp [Secret.bytes] at this
    simp [this]
  refine ⟨?_, ?_, ?_⟩
  · simp [TokenValidator.verify_token, TokenValidator.generate_token]
  · simp [TokenValidator.verify_token, TokenValidator.generate_token,
      TokenValidator.rotate_tokens]
  · simp [TokenValidator.verify_token, TokenValidator.generate_token,
      TokenValidator.rotate_tokens]
    exact ⟨fun heq => (hgen s2 s0 h2) heq, fun heq => (hgen s1 s0 h1) heq⟩

/-- C8 witness: the lifecycle at a concrete address with the identity
digest and distinct concrete secrets. -/
theorem c8_token_lifecycle_witness :
    (TokenValidator.mk ⟨0, 0, 0, 0⟩ ⟨9, 9, 9, 9⟩).verify_token id (addrP 42)
        ((TokenValidator.mk ⟨0, 0, 0, 0⟩ ⟨9, 9, 9, 9⟩).generate_token id (addrP 42)) = true
      ∧ ((TokenValidator.mk ⟨0, 0, 0, 0⟩ ⟨9, 9, 9, 9⟩).rotate_tokens ⟨1, 0, 0, 0⟩).verify_token
          id (addrP 42)
          ((TokenValidator.mk ⟨0, 0, 0, 0⟩ ⟨9, 9, 9, 9⟩).generate_token id (addrP 42)) = true
      ∧ (((TokenValidator.mk ⟨0, 0, 0, 0⟩ ⟨9, 9, 9, 9⟩).rotate_tokens ⟨1, 0, 0, 0⟩).rotate_tokens
          ⟨2, 0, 0, 0⟩).verify_token id (addrP 42)
          ((TokenValidator.mk ⟨0, 0, 0, 0⟩ ⟨9, 9, 9, 9⟩).generate_token id (addrP 42)) = false :=
  c8_token_lifecycle id (fun _ _ h => h) (addrP 42) ⟨0, 0, 0, 0⟩ ⟨9, 9, 9, 9⟩
    ⟨1, 0, 0, 0⟩ ⟨2, 0, 0, 0⟩ (by decide) (by decide)

/-! ## C9: the inbound stream never terminates -/

/-- C9: the unfold step always yields an item together with a continuation
(`some`), never end-of-stream: an I/O receive failure is surfaced as a
failed item (BindError context), a datagram that fails to decode is
surfaced as a failed item carrying the sender and the raw bytes
(InvalidInboundMessage), and a datagram that decodes is surfaced as the
envelope with its sender. -/
theorem c9_stream_never_terminates :
    (∀ (outcome : RecvOutcome) (s : Unit),
      receive_inbound_message_wrapper outcome s
        = some (receive_inbound_message outcome, s))
    ∧ (∀ s : Unit, receive_inbound_message_wrapper .ioError s
        = some (.error .BindError, s))
    ∧ (∀ (bytes : List Nat) (sender : SocketAddrV4) (s : Unit),
        Message.decode (bytes.take 1024) = none →
        receive_inbound_message_wrapper (.datagram bytes sender) s
          = some (.error (.InvalidInboundMessage sender (bytes.take 1024)), s))
    ∧ (∀ (bytes : List Nat) (sender : SocketAddrV4) (s : Unit) (envelope : Message),
        Message.decode (bytes.take 1024) = some envelope →
        receive_inbound_message_wrapper (.datagram bytes sender) s
          = some (.ok (envelope, sender), s)) := by
  refine ⟨fun outcome s => rfl, fun s => rfl, ?_, ?_⟩
  · intro bytes sender s hdec
    simp [receive_inbound_message_wrapper, receive_inbound_message, hdec]
  · intro bytes sender s envelope hdec
    simp [receive_inbound_message_wrapper, receive_inbound_message, hdec]

/-- C9 witness: the step on an I/O failure, an undecodable one-byte
datagram, and the encoded ping envelope. -/
theorem c9_stream_never_terminates_witness :
    (receive_inbound_message_wrapper .ioError () = some (.error .BindError, ()))
      ∧ receive_inbound_message_wrapper (.datagram [100] (addrP 9)) ()
          = some (.error (.InvalidInboundMessage (addrP 9) [100]), ())
      ∧ receive_inbound_message_wrapper (.datagram (Message.encode pingEnvelope) (addrP 9)) ()
          = some (.ok (pingEnvelope, addrP 9), ()) := by
  refine ⟨c9_stream_never_terminates.1 .ioError (),
    ?_, ?_⟩
  · exact c9_stream_never_terminates.2.2.1 [100] (addrP 9) () (by decide)
  · exact c9_stream_never_terminates.2.2.2 (Message.encode pingEnvelope) (addrP 9) ()
      pingEnvelope (by decide)

/-! ## C10: announce_peer error atomicity -/

/-- C10: handling announce_peer is atomic on error. When token
verification against the sender fails the handler returns the InvalidToken
protocol error with the state untouched; when the token verifies but
`implied_port` is false and no port is given it returns
InsufficientAddress with the state untouched; only when both checks pass
does it record the sender in the routing table and append the resolved
endpoint to the announce store, answering OnlyId. -/
theorem c10_announce_atomicity (dht : Dht) (hash : List Nat → List Nat) (now : Int)
    (from_addr : SocketAddrV4) (id : NodeID) (implied_port : Bool) (port : Option Nat)
    (info_hash : NodeID) (token : List Nat) (read_only : Bool) :
    (dht.routing_table.verify_token hash token from_addr = false →
      dht.handle_announce_peer hash now from_addr id implied_port port info_hash token read_only
        = (.error .InvalidToken, dht))
    ∧ (dht.routing_table.verify_token hash token from_addr = true →
        implied_port = false → port = none →
        dht.handle_announce_peer hash now from_addr id implied_port port info_hash token read_only
          = (.error .InsufficientAddress, dht))
    ∧ (dht.routing_table.verify_token hash token from_addr = true →
        implied_port = true →
        dht.handle_announce_peer hash now from_addr id implied_port port info_hash token read_only
          = (.ok (.OnlyId dht.id),
            { dht with
                routing_table := record_request dht.routing_table now id from_addr read_only,
                torrents := torrentsAppend dht.torrents info_hash from_addr }))
    ∧ (∀ p : Nat, dht.routing_table.verify_token hash token from_addr = true →
        implied_port = false → port = some p →
        dht.handle_announce_peer hash now from_addr id implied_port port info_hash token read_only
          = (.ok (.OnlyId dht.id),
            { dht with
                routing_table :=
                  record_request dht.routing_table now id { from_addr with port := p } read_only,
                torrents := torrentsAppend dht.torrents info_hash { from_addr with port := p } })) := by
  refine ⟨?_, ?_, ?_, ?_⟩
  · intro hv
    simp [Dht.handle_announce_peer, hv]
  · intro hv himp hport
    subst himp hport
    simp [Dht.handle_announce_peer, hv]
  · intro hv himp
    subst himp
    simp [Dht.handle_announce_peer, hv]
  · intro p hv himp hport
    subst himp hport
    simp [Dht.handle_announce_peer, hv]

/-- C10 witness: the concrete handler state rejects a bad token without
state change and accepts its own issued token, recording the sender. -/
theorem c10_announce_atomicity_witness :
    (c10Dht.handle_announce_peer id 0 (addrP 7) 5 true none 77 [9] false
        = (.error .InvalidToken, c10Dht))
      ∧ c10Dht.handle_announce_peer id 0 (addrP 7) 5 true none 77 c10Token false
          = (.ok (.OnlyId c10Dht.id),
            { c10Dht with
                routing_table := record_request c10Dht.routing_table 0 5 (addrP 7) false,
                torrents := torrentsAppend c10Dht.torrents 77 (addrP 7) }) :=
  ⟨(c10_announce_atomicity c10Dht id 0 (addrP 7) 5 true none 77 [9] false).1 (by decide),
   (c10_announce_atomicity c10Dht id 0 (addrP 7) 5 true none 77 c10Token false).2.2.1
     (by decide) rfl⟩
